import Mathlib

/-!
Verification of the segment resolution, path templating and file
materialization engine of the BEP032tools repository.

The definitions below are a shallow embedding of

  * `BIDSTools/BIDS_PROJECT_CONFIG/BIDS_modality_custom.py`
    (class `BIDSCommonModality`: `get_segment_details`,
    `get_segment_data_path`, `write_segment_info`, `create_converter`), and
  * `bep032tools/generator/BEP032NWDataConverter.py`
    (class `BEP032PatchClampNWData`: `register_data_files`,
    `get_data_folder`, `organize_data_files`, and the module level
    `create_file`).

Python dictionaries are embedded as association lists with dict-insert
semantics (assignment to an existing key replaces the value in place,
assignment to a fresh key appends).  Attribute values are `Option String`
(`none` is Python's `None`).  The file system is an association list from
path to file, where a file carries its byte content (as a `String`) and its
modification time (a `Nat`), which is what `filecmp.cmp(shallow=True)`
inspects.  Raised exceptions are an explicit error type `Err`.
-/

namespace BEP032

/-! ## Python string primitives -/

/-- `p` is a prefix of `s`, i.e. Python `s.startswith(p)`. -/
def strStartsWith (s p : String) : Bool :=
  p.data.isPrefixOf s.data

/-- One fuel-indexed step list of Python `str.replace`: replace every
non-overlapping occurrence of `old` in `s` by `new`, scanning left to
right.  `fuel ≥ s.length` makes the result independent of the fuel. -/
def replaceFuel (new old : List Char) : Nat → List Char → List Char
  | 0, s => s
  | _ + 1, [] => []
  | fuel + 1, c :: rest =>
    if old ≠ [] ∧ old.isPrefixOf (c :: rest) then
      new ++ replaceFuel new old fuel (rest.drop (old.length - 1))
    else
      c :: replaceFuel new old fuel rest

/-- Python `s.replace(old, new)` for a non-empty `old` (every use in the
sources has `old` ending in an underscore, hence non-empty). -/
def strReplace (s old new : String) : String :=
  String.mk (replaceFuel new.data old.data s.data.length s.data)

/-- Python `os.path.basename`: the part of the path after the last slash. -/
def baseName (p : String) : String :=
  String.mk (p.data.reverse.takeWhile (fun c => c ≠ '/')).reverse

/-- Python `os.path.join(a, b)` for a single right operand. -/
def pjoin (a b : String) : String :=
  if strStartsWith b "/" then b
  else if a = "" then b
  else if a.data.getLast? = some '/' then a ++ b
  else a ++ "/" ++ b

/-- Python `os.path.splitext(p)[1]`: the extension starting at the last dot
of the basename, empty when the part of the basename before that dot is
all dots (so `.edf` alone has no extension). -/
def splitExtExt (p : String) : String :=
  let bnrev := p.data.reverse.takeWhile (fun c => c ≠ '/')
  match bnrev.findIdx? (fun c => c = '.') with
  | none => ""
  | some j =>
    if (bnrev.drop (j + 1)).any (fun c => c ≠ '.') then
      String.mk (bnrev.take (j + 1)).reverse
    else ""

/-- `pathlib.PurePath.suffix`: like `splitExtExt` but empty when the dot is
the first or the last character of the name. -/
def pathSuffix (p : String) : String :=
  let name := p.data.reverse.takeWhile (fun c => c ≠ '/')
  match name.findIdx? (fun c => c = '.') with
  | none => ""
  | some j =>
    if 0 < j ∧ j < name.length - 1 then String.mk (name.take (j + 1)).reverse
    else ""

/-- `pathlib.PurePath.with_suffix(newSuf)`: drop the current suffix and
append `newSuf` (which carries its own dot). -/
def pathWithSuffix (p newSuf : String) : String :=
  String.mk (p.data.take (p.data.length - (pathSuffix p).data.length)) ++ newSuf

/-- How Python's `str.format` renders a context value: `None` prints as the
four letter word. -/
def pyShow : Option String → String
  | some s => s
  | none => "None"

/-! ## Dictionaries as association lists -/

/-- First-match lookup, Python `d[k]` / `d.get(k)`. -/
def dget {α : Type} : List (String × α) → String → Option α
  | [], _ => none
  | (k0, v) :: rest, k => if k0 = k then some v else dget rest k

/-- Python `d[k] = v`: replace in place at the first occurrence of the key,
append when the key is fresh. -/
def dinsert {α : Type} : List (String × α) → String → α → List (String × α)
  | [], k, v => [(k, v)]
  | (k0, v0) :: rest, k, v =>
    if k0 = k then (k0, v) :: rest else (k0, v0) :: dinsert rest k v

/-- Python `del d[k]` / `Path.unlink` on the file system map. -/
def dremove {α : Type} : List (String × α) → String → List (String × α)
  | [], _ => []
  | (k0, v0) :: rest, k =>
    if k0 = k then dremove rest k else (k0, v0) :: dremove rest k

/-- Python `k in d`. -/
def hasKey {α : Type} (d : List (String × α)) (k : String) : Bool :=
  (dget d k).isSome

/-- Python `base.update(upd)` (later entries of `upd` win). -/
def dictUpdate {α : Type} (base upd : List (String × α)) : List (String × α) :=
  upd.foldl (fun acc p => dinsert acc p.1 p.2) base

/-! ## Templates (`str.format` with named placeholders) -/

/-- One piece of a format string: literal text or a named placeholder. -/
inductive TPart : Type
  | lit (s : String)
  | fld (name : String)
  deriving Repr, DecidableEq

/-- A format string, already split into pieces. -/
abbrev Tmpl : Type := List TPart

/-- The placeholder names a template references. -/
def tmplFieldNames : Tmpl → List String :=
  List.filterMap (fun p => match p with | .fld n => some n | .lit _ => none)

/-- Python `tmpl.format(**ctx)`: substitute every placeholder from the
context; a placeholder absent from the context raises `KeyError` with that
name (the leftmost missing one), and is never replaced by an empty
string.  A present `None` renders as Python prints it. -/
def fillParts : Tmpl → List (String × Option String) → Except String String
  | [], _ => .ok ""
  | .lit s :: rest, ctx => (fillParts rest ctx).map (fun r => s ++ r)
  | .fld n :: rest, ctx =>
    match dget ctx n with
    | none => .error n
    | some v => (fillParts rest ctx).map (fun r => pyShow v ++ r)

/-! ## Errors

The exceptions the engine can raise, named after the spec's error
taxonomy (`ValueError`/`KeyError`/`TypeError`/`FileNotFoundError` in the
Python sources). -/

inductive Err : Type
  | missingSegmentIdentifier (segmentKey : String)
  | missingTemplateField (name : String)
  | destinationExists (path : String)
  | contentMismatch (source destination : String)
  | invalidFileMode (mode : String)
  | missingBaseDirectory
  | missingFilenameStem
  | invalidEphysType
  | wrongFileFormat (suffix : String)
  | invalidAutoconvert (format : String)
  | fileNotFound (path : String)
  | keyError (key : String)
  | typeError
  deriving Repr, DecidableEq

/-! ## Experiment records and configuration -/

/-- Modelled from the spec: the `Experiment` class (`BIDSTools/Experiment.py`)
is not among the source files.  Per spec sections 3 and 6 an
`ExperimentRecord` is an ordered mapping from attribute name to value
(string or null), exposing named-attribute read access (`getattr`, default
`None`) and a full key-value export (`to_dict`). -/
abbrev Experiment : Type := List (String × Option String)

/-- Python `getattr(experiment, name, None)`: an attribute stored as `None`
and an absent attribute both read back as `None`. -/
def expGet (e : Experiment) (name : String) : Option String :=
  match dget e name with
  | some v => v
  | none => none

/-- The configuration values `BIDSCommonModality.__init__` reads from the
`ProjectConfig` (segment type and id attribute, ordered segment list, the
three template strings, and the global `modality` entry). -/
structure Config : Type where
  segment_type : String
  segment_id_attr : String
  segment_list : List String
  data_file_format : Tmpl
  custom_pattern : Tmpl
  raw_data_path_pattern : Tmpl
  modality : Option String

/-- A resolved segment bundle: a Python dict from field name to value. -/
abbrev Bundle : Type := List (String × Option String)

/-! ## SegmentResolver: `BIDSCommonModality.get_segment_details` -/

/-- Lines 80-84: the candidate field names for one segment, scanning the
experiment's attribute names for those starting with `{segment_key}_` and
applying `field_name.replace(f"{segment_key}_", "")` (note: `replace`
removes every occurrence, not only the leading one). -/
def segScanFields (e : Experiment) (segmentKey : String) : List String :=
  e.filterMap (fun a =>
    if strStartsWith a.1 (segmentKey ++ "_") then
      some (strReplace a.1 (segmentKey ++ "_") "")
    else none)

/-- Lines 88-90: the attribute name actually read for a field, from
`custom_pattern.format(**{f"{segment_type}_key": segment_key,
"field": field, "segment_key": segment_key})`. -/
def customAttrName (cfg : Config) (segmentKey field : String) :
    Except String String :=
  fillParts cfg.custom_pattern
    [(cfg.segment_type ++ "_key", some segmentKey), ("field", some field),
      ("segment_key", some segmentKey)]

/-- `customAttrName` with the error collapsed; when the custom pattern only
references the keys the code supplies, `customAttrName` returns `.ok` of
this value. -/
def customAttrD (cfg : Config) (segmentKey field : String) : String :=
  match customAttrName cfg segmentKey field with
  | .ok a => a
  | .error _ => ""

/-- Lines 100-104: the attribute name holding the segment's raw data path,
from `raw_data_path_pattern.format(...)`. -/
def rawAttrName (cfg : Config) (segmentKey : String) : Except String String :=
  fillParts cfg.raw_data_path_pattern
    [(cfg.segment_type ++ "_key", some segmentKey),
      ("segment_key", some segmentKey)]

/-- `rawAttrName` with the error collapsed. -/
def rawAttrD (cfg : Config) (segmentKey : String) : String :=
  match rawAttrName cfg segmentKey with
  | .ok a => a
  | .error _ => ""

/-- Lines 86-92: the per-field loop, writing
`segment_data[field] = getattr(experiment, pattern, None)`; a `KeyError`
from the pattern format aborts (spec: `MissingTemplateField`). -/
def resolveFieldsLoop (cfg : Config) (e : Experiment) (segmentKey : String) :
    List String → Bundle → Except Err Bundle
  | [], b => .ok b
  | f :: rest, b =>
    match customAttrName cfg segmentKey f with
    | .error n => .error (.missingTemplateField n)
    | .ok p => resolveFieldsLoop cfg e segmentKey rest (dinsert b f (expGet e p))

/-- Lines 76-104 of `get_segment_details`: the bundle for one segment
before the identity check — field scan and read, the
`segment_data[segment_type] = segment_key` entry, and the
`raw_data_path` entry. -/
def preIdBundle (cfg : Config) (e : Experiment) (segmentKey : String) :
    Except Err Bundle :=
  match resolveFieldsLoop cfg e segmentKey (segScanFields e segmentKey) [] with
  | .error er => .error er
  | .ok b =>
    let b := dinsert b cfg.segment_type (some segmentKey)
    match rawAttrName cfg segmentKey with
    | .error n => .error (.missingTemplateField n)
    | .ok rp => .ok (dinsert b "raw_data_path" (expGet e rp))

/-- Lines 76-111: one segment of `get_segment_details` — the pre-identity
bundle, then lines 107-111: if the bundle has an `id` key its value is
mirrored under the configured segment id attribute and under
`segment_id`; otherwise a `ValueError` naming the segment is raised
(spec: `MissingSegmentIdentifier`). -/
def resolveSegment (cfg : Config) (e : Experiment) (segmentKey : String) :
    Except Err Bundle :=
  match preIdBundle cfg e segmentKey with
  | .error er => .error er
  | .ok b =>
    if hasKey b "id" then
      let idv := expGet b "id"
      .ok (dinsert (dinsert b cfg.segment_id_attr idv) "segment_id" idv)
    else .error (.missingSegmentIdentifier segmentKey)

/-- `resolveSegment` with the error collapsed to an empty bundle. -/
def resolveSegmentD (cfg : Config) (e : Experiment) (segmentKey : String) :
    Bundle :=
  match resolveSegment cfg e segmentKey with
  | .ok b => b
  | .error _ => []

/-- Lines 75-116: the loop over `config.segment_list`, storing each
resolved bundle under its segment key; the first raised error aborts the
whole resolution. -/
def getSegmentDetailsGo (cfg : Config) (e : Experiment) :
    List String → List (String × Bundle) → Except Err (List (String × Bundle))
  | [], acc => .ok acc
  | s :: rest, acc =>
    match resolveSegment cfg e s with
    | .error er => .error er
    | .ok b => getSegmentDetailsGo cfg e rest (dinsert acc s b)

/-- `BIDSCommonModality.get_segment_details` (lines 71-117). -/
def getSegmentDetails (cfg : Config) (e : Experiment) :
    Except Err (List (String × Bundle)) :=
  getSegmentDetailsGo cfg e cfg.segment_list []

/-! ## PathTemplateEngine: `BIDSCommonModality.get_segment_data_path` -/

/-- Lines 137-140: the render context — the full experiment record as
base, updated with every bundle field (bundle wins on collision), then
`modality` from the global configuration with default `"unknown"`. -/
def renderContext (cfg : Config) (e : Experiment) (b : Bundle) :
    List (String × Option String) :=
  dinsert (dictUpdate e b) "modality" (some (cfg.modality.getD "unknown"))

/-- Lines 137-144 (`get_segment_data_path`): fill `data_file_format`
against the render context and store the result under `final_path`; a
placeholder absent from the context raises (spec:
`MissingTemplateField`). -/
def getSegmentDataPath (cfg : Config) (e : Experiment) (b : Bundle) :
    Except Err Bundle :=
  match fillParts cfg.data_file_format (renderContext cfg e b) with
  | .error n => .error (.missingTemplateField n)
  | .ok s => .ok (dinsert b "final_path" (some s))

/-! ## File system model -/

/-- A regular file: its byte content and its stat modification time (the
parts of the `os.stat` signature that `filecmp.cmp(shallow=True)`
compares, the size being the length of the content). -/
structure File : Type where
  bytes : String
  mtime : Nat
  deriving Repr, DecidableEq

/-- The file system: a mapping from absolute path to file. -/
abbrev FS : Type := List (String × File)

/-! ## ConverterDispatch: `create_converter` and `write_segment_info` -/

/-- A constructed `ConvertedfSData` converter (file
`BIDSTools/convertfileformat.py`): the raw data path it was given, the
output directory, and the merged experiment-plus-bundle context record.
The byte-level conversion it performs is an external collaborator (spec
section 1) and is recorded as an invocation event only. -/
structure Conv : Type where
  raw : Option String
  outDir : String
  ctx : List (String × Option String)
  deriving Repr, DecidableEq

/-- The mutable state of one `write_segment_info` run: the file system,
`self.converter`, the ordered `convert_bids_data()` invocations, and the
log lines written via `log.info`. -/
structure WState : Type where
  fs : FS
  converter : Option Conv
  conversions : List Conv
  logs : List String
  deriving Repr, DecidableEq

/-- `BIDSCommonModality.create_converter` (lines 190-220): merge the
experiment with the bundle, take the extension of `raw_data_path` with
`os.path.splitext`; for `.edf` install a fresh `ConvertedfSData` on
`self.converter`, for anything else only log
`Unknown file format: {ext}` — `self.converter` keeps its previous
value. -/
def createConverter (e : Experiment) (dir : String)
    (conv : Option Conv) (logs : List String) (info : Bundle) :
    Except Err (Option Conv × List String) :=
  match dget info "raw_data_path" with
  | none => .error (.keyError "raw_data_path")
  | some rdpOpt =>
    match rdpOpt with
    | none => .error .typeError
    | some rdp =>
      let allInfo := dictUpdate e info
      let ext := splitExtExt rdp
      match dget info "final_raw_data_path" with
      | none => .error (.keyError "final_raw_data_path")
      | some frdp =>
        if ext = ".edf" then .ok (some (Conv.mk frdp dir allInfo), logs)
        else .ok (conv, logs ++ ["Unknown file format: " ++ ext])

/-- Python truthiness of `segment_info.get('raw_data_path')`: an absent
key, a `None` value and an empty string are all falsy. -/
def truthyStr : Option (Option String) → Option String
  | some (some s) => if s = "" then none else some s
  | some none => none
  | none => none

/-- The body of the `write_segment_info` loop (lines 154-183) for one
`(segment_key, segment_info)` item: render the final path (the
`os.makedirs(..., exist_ok=True)` call has no effect in this path-to-file
model); when `raw_data_path` is truthy, `shutil.copyfile` the source to
`current_dir/basename(final_path)` (fresh modification time `now`),
record that path as `final_raw_data_path`, run `create_converter`, then
either log that the modality has no converter or invoke
`convert_bids_data()` on whichever converter is installed. -/
def processSegment (cfg : Config) (e : Experiment) (dir : String) (now : Nat)
    (st : WState) (item : String × Bundle) : Except Err (WState × Bundle) :=
  match getSegmentDataPath cfg e item.2 with
  | .error er => .error er
  | .ok info =>
    match truthyStr (dget info "raw_data_path") with
    | none => .ok (st, info)
    | some rdp =>
      match dget info "final_path" with
      | none => .error (.keyError "final_path")
      | some fpOpt =>
        match fpOpt with
        | none => .error .typeError
        | some fp =>
          match dget st.fs rdp with
          | none => .error (.fileNotFound rdp)
          | some srcFile =>
            let dst := pjoin dir (baseName fp)
            let fs2 := dinsert st.fs dst (File.mk srcFile.bytes now)
            let info2 := dinsert info "final_raw_data_path" (some dst)
            match createConverter e dir st.converter st.logs info2 with
            | .error er => .error er
            | .ok (conv2, logs2) =>
              match conv2 with
              | none =>
                .ok (WState.mk fs2 none st.conversions
                  (logs2 ++
                    ["Modality " ++ pyShow cfg.modality ++ " has no converter"]),
                  info2)
              | some c =>
                .ok (WState.mk fs2 (some c) (st.conversions ++ [c]) logs2, info2)

/-- The `for segment_key, segment_info in details.items()` loop of
`write_segment_info`. -/
def writeSegmentsGo (cfg : Config) (e : Experiment) (dir : String)
    (now : Nat) : List (String × Bundle) → WState → Except Err WState
  | [], st => .ok st
  | item :: rest, st =>
    match processSegment cfg e dir now st item with
    | .error er => .error er
    | .ok (st2, _) => writeSegmentsGo cfg e dir now rest st2

/-- `BIDSCommonModality.write_segment_info` (lines 146-183), starting from
a file system and the constructor's `converter = None`. -/
def writeSegmentInfo (cfg : Config) (e : Experiment) (dir : String)
    (fs : FS) (now : Nat) : Except Err WState :=
  match getSegmentDetails cfg e with
  | .error er => .error er
  | .ok details => writeSegmentsGo cfg e dir now details (WState.mk fs none [] [])

/-! ## FileMaterializer: module level `create_file`
(`bep032tools/generator/BEP032NWDataConverter.py`, lines 396-433) -/

/-- `filecmp.cmp(f1, f2, shallow=True)` on two regular files: unequal
sizes compare false without reading bytes; equal stat signatures (size
and modification time) compare true without reading bytes; otherwise the
byte contents are compared. -/
def cmpShallow (f1 f2 : File) : Bool :=
  if f1.bytes.length ≠ f2.bytes.length then false
  else if f1.mtime = f2.mtime then true
  else f1.bytes = f2.bytes

/-- Lines 426-433: the mode dispatch of `create_file`.  `shutil.copy`
writes the source bytes with a fresh modification time, `os.link` makes
the destination the very same file, `shutil.move` does so and removes the
source, and any other mode raises `ValueError` (spec:
`InvalidFileMode`). -/
def createModes (fs : FS) (source destination mode : String) (now : Nat) :
    FS × Option Err :=
  if mode = "copy" then
    match dget fs source with
    | none => (fs, some (.fileNotFound source))
    | some sf => (dinsert fs destination (File.mk sf.bytes now), none)
  else if mode = "link" then
    match dget fs source with
    | none => (fs, some (.fileNotFound source))
    | some sf => (dinsert fs destination sf, none)
  else if mode = "move" then
    match dget fs source with
    | none => (fs, some (.fileNotFound source))
    | some sf => (dinsert (dremove fs source) destination sf, none)
  else (fs, some (.invalidFileMode mode))

/-- `create_file(source, destination, mode, exist_ok)` (lines 396-433).
When the destination exists: without `exist_ok` raise (spec:
`DestinationExists`); otherwise require `filecmp.cmp(source, destination,
shallow=True)` (spec: `ContentMismatch`), then unlink the destination
before re-creating it by mode.  The file system at the moment of the
raise is returned next to the error. -/
def createFile (fs : FS) (source destination mode : String)
    (exist_ok : Bool) (now : Nat) : FS × Option Err :=
  match dget fs destination with
  | some dfile =>
    if exist_ok = false then (fs, some (.destinationExists destination))
    else
      match dget fs source with
      | none => (fs, some (.fileNotFound source))
      | some sfile =>
        if cmpShallow sfile dfile = false then
          (fs, some (.contentMismatch source destination))
        else createModes (dremove fs destination) source destination mode now
  | none => createModes fs source destination mode now

/-! ## DatasetUnit: `BEP032PatchClampNWData` -/

/-- The `BEP032PatchClampNWData` object: subject and session ids, the
`modality='ephys'` / `ephys_type='ice'` tags fixed by its constructor,
the insertion-ordered `self.data` mapping from composite key to the
registered files, and the optional base directory and filename stem. -/
structure NWData : Type where
  sub_id : String
  ses_id : String
  modality : String := "ephys"
  ephys_type : String := "ice"
  data : List (String × List String) := []
  basedir : Option String := none
  filename_stem : Option String := none
  deriving Repr, DecidableEq

/-- Lines 109-115 of `register_data_files`: the composite key —
`task-{task}` then `run-{run}`, each only when provided, joined by an
underscore when the key is already non-empty. -/
def mkKey (task run : Option String) : String :=
  let k := match task with
    | some t => "task-" ++ t
    | none => ""
  match run with
  | some r => (if k = "" then k else k ++ "_") ++ "run-" ++ r
  | none => k

/-- Lines 96-107: the per-file extension gate of `register_data_files`.
A file whose `Path(...).suffix` is not in `DATA_EXTENSIONS` raises
`ValueError` when `autoconvert` is `None`, raises for an `autoconvert`
other than `nwb`/`nix`, and is otherwise replaced by the converted file's
path, `Path(source).with_suffix('.' + autoconvert)` (module level
`convert_data`, lines 366-393; the byte conversion itself is an external
`neo` call). -/
def registerTransform (dataExts : List String) (autoconvert : Option String)
    (f : String) : Except Err String :=
  if (dataExts.contains (pathSuffix f)) = true then .ok f
  else
    match autoconvert with
    | none => .error (.wrongFileFormat (pathSuffix f))
    | some fmt =>
      if fmt = "nwb" ∨ fmt = "nix" then .ok (pathWithSuffix f ("." ++ fmt))
      else .error (.invalidAutoconvert fmt)

/-- The `for file_idx in range(len(files))` loop of `register_data_files`:
gate or convert each file in order, the first raised error aborting. -/
def registerGate (dataExts : List String) (autoconvert : Option String) :
    List String → Except Err (List String)
  | [] => .ok []
  | f :: rest =>
    match registerTransform dataExts autoconvert f with
    | .error er => .error er
    | .ok f2 =>
      match registerGate dataExts autoconvert rest with
      | .error er => .error er
      | .ok rest2 => .ok (f2 :: rest2)

/-- `register_data_files(*files, task, run, autoconvert)` (lines 76-120):
gate/convert every file, build the composite key, then store the files
under it — a fresh key maps to the given list, an existing key has them
appended after the files already registered.  `DATA_EXTENSIONS` comes
from `bep032tools.rulesStructured`, outside these sources, so it is a
parameter here. -/
def registerDataFiles (d : NWData) (files : List String)
    (task run : Option String) (dataExts : List String)
    (autoconvert : Option String) : Except Err NWData :=
  match registerGate dataExts autoconvert files with
  | .error er => .error er
  | .ok files2 =>
    let key := mkKey task run
    match dget d.data key with
    | none => .ok { d with data := dinsert d.data key files2 }
    | some old => .ok { d with data := dinsert d.data key (old ++ files2) }

/-- `get_data_folder(mode='absolute')` (lines 138-169): extra-cellular
data has a session level directory, intra-cellular data (the patch clamp
case, `ephys_type='ice'`) has none; the relative path is prefixed by the
base directory. -/
def getDataFolder (d : NWData) : Except Err String :=
  if d.ephys_type = "ece" then
    match d.basedir with
    | none => .error .missingBaseDirectory
    | some bd =>
      .ok (pjoin bd ("sub-" ++ d.sub_id ++ "/ses-" ++ d.ses_id ++ "/" ++ d.modality))
  else if d.ephys_type = "ice" then
    match d.basedir with
    | none => .error .missingBaseDirectory
    | some bd => .ok (pjoin bd ("sub-" ++ d.sub_id ++ "/" ++ d.modality))
  else .error .invalidEphysType

/-- Line 218-219 of `organize_data_files`: the composite key gets an
underscore prepended for filename concatenation when non-empty. -/
def keyPref (key : String) : String :=
  if key = "" then "" else "_" ++ key

/-- Lines 221-235: the destination filename for the file at 0-based
position `i` of the `n` files registered under `key`.  In `convert` mode
it is `stem + key + '.' + output_format` (no split suffix, no modality
postfix); in every other mode it is `stem + key + split + '_ephys' +
suffix` where `split` is `_split-{i}` only when `n > 1` and `suffix`
preserves the source file's suffix. -/
def newFilename (mode outfmt stem key : String) (n i : Nat) (f : String) :
    String :=
  if mode = "convert" then stem ++ keyPref key ++ "." ++ outfmt
  else
    stem ++ keyPref key ++ (if n > 1 then "_split-" ++ toString i else "") ++
      "_ephys" ++ pathSuffix f

/-- Modelled from the spec: `convert_file` is imported from
`bep032tools.generator.utils`, which is not among the source files.  Per
spec section 4.5, in `convert` mode the registered data file is converted
and written at the computed destination with the requested output
format; the converted byte content itself is opaque, recorded here as a
tagged copy of the source bytes. -/
def convertFileM (fs : FS) (source destination outfmt : String) (now : Nat) :
    FS × Option Err :=
  match dget fs source with
  | none => (fs, some (.fileNotFound source))
  | some sf =>
    (dinsert fs destination (File.mk ("converted-" ++ outfmt ++ ":" ++ sf.bytes) now), none)

/-- One iteration of the inner loop of `organize_data_files`: `convert`
mode converts into the destination, every other mode goes through
`create_file(file, destination, mode, exist_ok=True)`. -/
def orgStep (mode outfmt : String) (now : Nat) (fs : FS)
    (source destination : String) : FS × Option Err :=
  if mode = "convert" then convertFileM fs source destination outfmt now
  else createFile fs source destination mode true now

/-- The two nested loops of `organize_data_files` (lines 216-236) as the
ordered list of (source, destination) pairs they visit: every `(key,
files)` item of `self.data` in order, every file of `files` with its
`enumerate` index. -/
def organizePlan (mode outfmt folder stem : String)
    (data : List (String × List String)) : List (String × String) :=
  data.flatMap (fun p =>
    p.2.enum.map (fun q =>
      (q.2, pjoin folder (newFilename mode outfmt stem p.1 p.2.length q.1 q.2))))

/-- Run the planned file placements in order; the first error aborts the
loop (the exception propagates).  Returns the file system, the
destinations successfully written in order, and the error if any. -/
def runPlan (mode outfmt : String) (now : Nat) :
    List (String × String) → FS → FS × List String × Option Err
  | [], fs => (fs, [], none)
  | (source, destination) :: rest, fs =>
    match orgStep mode outfmt now fs source destination with
    | (fs2, some er) => (fs2, [], some er)
    | (fs2, none) =>
      match runPlan mode outfmt now rest fs2 with
      | (fs3, tr, r) => (fs3, destination :: tr, r)

/-- `organize_data_files(mode, output_format)` (lines 196-236): require
the base directory and the filename stem, compute the absolute data
folder, then place every registered file. -/
def organizeDataFiles (d : NWData) (fs : FS) (mode outfmt : String)
    (now : Nat) : FS × List String × Option Err :=
  match d.basedir with
  | none => (fs, [], some .missingBaseDirectory)
  | some _ =>
    match d.filename_stem with
    | none => (fs, [], some .missingFilenameStem)
    | some stem =>
      match getDataFolder d with
      | .error er => (fs, [], some er)
      | .ok folder => runPlan mode outfmt now (organizePlan mode outfmt folder stem d.data) fs

/-! ## Auxiliary definitions: well-formedness of the configured patterns,
the file `create_file` places, and concrete instances used below -/

def cfgC1 : Config :=
  { segment_type := "run"
    segment_id_attr := "run_id"
    segment_list := ["p", "q"]
    data_file_format := [.lit "sub-1_", .fld "run", .lit "_data"]
    custom_pattern := [.fld "segment_key", .lit "_", .fld "field"]
    raw_data_path_pattern := [.fld "segment_key", .lit "_datafile_path"]
    modality := none }

def expC1 : Experiment := [("p_id", some "1"), ("q_foo", some "2")]

def cfgC2 : Config :=
  { segment_type := "run"
    segment_id_attr := "run_id"
    segment_list := ["s1"]
    data_file_format := [.lit "sub-1_", .fld "run", .lit "_data"]
    custom_pattern := [.fld "segment_key", .lit "_", .fld "field"]
    raw_data_path_pattern := [.fld "segment_key", .lit "_datafile_path"]
    modality := none }

def expC2 : Experiment :=
  [("s1_id", some "1"), ("s1_datafile_path", some "/d/a.edf")]

def bC2 : Bundle :=
  [("id", some "1"), ("datafile_path", some "/d/a.edf"),
   ("run", some "s1"), ("raw_data_path", some "/d/a.edf"),
   ("run_id", some "1"), ("segment_id", some "1")]

def infoC2 : Bundle := bC2 ++ [("final_path", some "sub-1_s1_data")]

def stC2 : WState := WState.mk [("/d/a.edf", File.mk "AA" 0)] none [] []

def cfgC4 : Config :=
  { segment_type := "run"
    segment_id_attr := "run_id"
    segment_list := ["s1", "s2"]
    data_file_format := [.lit "sub-1_", .fld "run", .lit "_data"]
    custom_pattern := [.fld "segment_key", .lit "_", .fld "field"]
    raw_data_path_pattern := [.fld "segment_key", .lit "_datafile_path"]
    modality := none }

def expC4 : Experiment :=
  [("s1_id", some "1"), ("s1_datafile_path", some "/d/a.edf"),
   ("s2_id", some "2"), ("s2_datafile_path", some "/d/b.xyz")]

def fsC4 : FS := [("/d/a.edf", File.mk "AA" 0), ("/d/b.xyz", File.mk "BB" 0)]

def bC4 : Bundle :=
  [("id", some "2"), ("datafile_path", some "/d/b.xyz"),
   ("run", some "s2"), ("raw_data_path", some "/d/b.xyz"),
   ("run_id", some "2"), ("segment_id", some "2")]

def infoC4 : Bundle := bC4 ++ [("final_path", some "sub-1_s2_data")]

def stC4 : WState := WState.mk fsC4 none [] []

def fsC5 : FS := [("/s", File.mk "ab" 5), ("/d", File.mk "xy" 5)]

def dC8 : NWData :=
  { sub_id := "s", ses_id := "x",
    data := [("run-01", ["/r/F0.abf"])] }

def dC7 : NWData :=
  { sub_id := "s", ses_id := "x",
    data := [("run-01", ["/r/F1.abf", "/r/F2.abf", "/r/F3.abf"])],
    basedir := some "/b", filename_stem := some "sub-s" }

def fsC7 : FS :=
  [("/r/F1.abf", File.mk "A" 0), ("/r/F2.abf", File.mk "B" 0),
   ("/r/F3.abf", File.mk "C" 0)]

/-- The file `create_file` places at the destination: `copy` writes the
source bytes with a fresh modification time, `link` shares the source
file itself. -/
def mkNew (mode : String) (sf : File) (now : Nat) : File :=
  if mode = "copy" then File.mk sf.bytes now else sf

def dC9 : NWData :=
  { sub_id := "s", ses_id := "x",
    data := [("run-01", ["/r/F1.abf"]), ("run-02", ["/r/F2.abf"])],
    basedir := some "/b", filename_stem := some "sub-s" }

def fsC9 : FS :=
  [("/r/F1.abf", File.mk "A" 0), ("/r/F2.abf", File.mk "B" 0)]

def planC9 : List (String × String) :=
  [("/r/F1.abf", "/b/sub-s/ephys/sub-s_run-01_ephys.abf"),
   ("/r/F2.abf", "/b/sub-s/ephys/sub-s_run-02_ephys.abf")]

/-- The custom pattern references only the keys the code supplies. -/
def customPatternOk (cfg : Config) : Prop :=
  ∀ n ∈ tmplFieldNames cfg.custom_pattern,
    n = cfg.segment_type ++ "_key" ∨ n = "field" ∨ n = "segment_key"

/-- The raw data path pattern references only the keys the code supplies. -/
def rawPatternOk (cfg : Config) : Prop :=
  ∀ n ∈ tmplFieldNames cfg.raw_data_path_pattern,
    n = cfg.segment_type ++ "_key" ∨ n = "segment_key"

def cfgC10 : Config :=
  { segment_type := "run"
    segment_id_attr := "run_id"
    segment_list := ["s"]
    data_file_format := []
    custom_pattern := [.fld "segment_key", .lit "_custom_", .fld "field"]
    raw_data_path_pattern := [.fld "segment_key", .lit "_datafile_path"]
    modality := none }

def expC10 : Experiment := [("s_id", some "1")]

def cfgC6 : Config :=
  { segment_type := "run"
    segment_id_attr := "run_id"
    segment_list := ["s"]
    data_file_format := []
    custom_pattern := [.fld "segment_key", .lit "_", .fld "field"]
    raw_data_path_pattern := [.fld "segment_key", .lit "_datafile_path"]
    modality := none }

def expC6 : Experiment := [("s_id", some "1"), ("s_s_x", some "v")]

def cfgC6w : Config :=
  { segment_type := "run"
    segment_id_attr := "run_id"
    segment_list := ["s1", "s2"]
    data_file_format := []
    custom_pattern := [.fld "segment_key", .lit "_", .fld "field"]
    raw_data_path_pattern := [.fld "segment_key", .lit "_datafile_path"]
    modality := none }

def expC6w : Experiment :=
  [("s1_id", some "1"), ("s1_datafile_path", some "/d/a.edf"),
   ("s2_id", some "2")]

def sampleC6w : List (String × String) :=
  [("s1", "id"), ("s1", "datafile_path"), ("s2", "id")]

/-! ## Lemmas and the claim theorems -/

theorem dget_cons {α : Type} (k0 k : String) (v0 : α)
    (rest : List (String × α)) :
    dget ((k0, v0) :: rest) k = if k0 = k then some v0 else dget rest k := rfl

theorem dget_dinsert {α : Type} (d : List (String × α)) (k k' : String)
    (v : α) :
    dget (dinsert d k v) k' = if k' = k then some v else dget d k' := by
  induction d with
  | nil =>
    by_cases h : k' = k
    · subst h; simp [dinsert, dget]
    · simp [dinsert, dget, h, Ne.symm h]
  | cons p rest ih =>
    obtain ⟨k0, v0⟩ := p
    by_cases h0 : k0 = k
    · subst h0
      by_cases h : k' = k0
      · subst h; simp [dinsert, dget]
      · simp [dinsert, dget, h, Ne.symm h]
    · by_cases h : k' = k0
      · subst h
        simp [dinsert, dget, h0, Ne.symm h0]
      · simp [dinsert, dget, h0, Ne.symm h, ih]

theorem hasKey_dinsert {α : Type} (d : List (String × α)) (k k' : String)
    (v : α) :
    hasKey (dinsert d k v) k' = (if k' = k then true else hasKey d k') := by
  by_cases h : k' = k <;> simp [hasKey, dget_dinsert, h]

theorem dget_dremove {α : Type} (d : List (String × α)) (k k' : String) :
    dget (dremove d k) k' = if k' = k then none else dget d k' := by
  induction d with
  | nil => simp [dremove, dget]
  | cons p rest ih =>
    obtain ⟨k0, v0⟩ := p
    by_cases h0 : k0 = k
    · subst h0
      by_cases h : k' = k0
      · subst h; simp [dremove, dget, ih]
      · simp [dremove, dget, h, Ne.symm h, ih]
    · by_cases h : k' = k0
      · subst h
        simp [dremove, dget, h0, ih]
      · simp [dremove, dget, h0, Ne.symm h, ih]

theorem dget_none_of_not_mem {α : Type} (d : List (String × α)) (k : String)
    (h : k ∉ d.map Prod.fst) : dget d k = none := by
  induction d with
  | nil => rfl
  | cons p rest ih =>
    obtain ⟨k0, v0⟩ := p
    simp only [List.map_cons, List.mem_cons] at h
    push_neg at h
    rw [dget_cons, if_neg (fun hc => h.1 hc.symm)]
    exact ih h.2

theorem dinsert_fresh {α : Type} (d : List (String × α)) (k : String) (v : α)
    (h : dget d k = none) : dinsert d k v = d ++ [(k, v)] := by
  induction d with
  | nil => simp [dinsert]
  | cons p rest ih =>
    obtain ⟨k0, v0⟩ := p
    by_cases h0 : k0 = k
    · subst h0; simp [dget] at h
    · rw [dget_cons, if_neg h0] at h
      simp [dinsert, h0, ih h]

theorem dget_append_left {α : Type} (d1 d2 : List (String × α)) (k : String)
    (h : dget d1 k = none) : dget (d1 ++ d2) k = dget d2 k := by
  induction d1 with
  | nil => simp
  | cons p rest ih =>
    obtain ⟨k0, v0⟩ := p
    by_cases h0 : k0 = k
    · subst h0; simp [dget] at h
    · rw [dget_cons, if_neg h0] at h
      rw [List.cons_append, dget_cons, if_neg h0]
      exact ih h

theorem dget_dictUpdate {α : Type} (base upd : List (String × α))
    (hnd : (upd.map Prod.fst).Nodup) (k : String) :
    dget (dictUpdate base upd) k = (dget upd k).or (dget base k) := by
  induction upd generalizing base with
  | nil => simp [dictUpdate, dget]
  | cons p rest ih =>
    obtain ⟨k0, v0⟩ := p
    simp only [List.map_cons, List.nodup_cons] at hnd
    have step : dictUpdate base ((k0, v0) :: rest) =
        dictUpdate (dinsert base k0 v0) rest := rfl
    rw [step, ih _ hnd.2]
    by_cases h : k = k0
    · subst h
      have hrest : dget rest k = none :=
        dget_none_of_not_mem rest k hnd.1
      simp [hrest, dget_cons, dget_dinsert]
    · rw [dget_cons, if_neg (Ne.symm h), dget_dinsert, if_neg h]

theorem tmplFieldNames_nil : tmplFieldNames [] = [] := rfl

theorem tmplFieldNames_lit (s : String) (rest : Tmpl) :
    tmplFieldNames (.lit s :: rest) = tmplFieldNames rest := rfl

theorem tmplFieldNames_fld (n : String) (rest : Tmpl) :
    tmplFieldNames (.fld n :: rest) = n :: tmplFieldNames rest := rfl

theorem fillParts_ok_iff (t : Tmpl) (ctx : List (String × Option String)) :
    (∃ s, fillParts t ctx = .ok s) ↔
      ∀ n ∈ tmplFieldNames t, hasKey ctx n = true := by
  induction t with
  | nil => simp [fillParts, tmplFieldNames_nil]
  | cons p rest ih =>
    cases p with
    | lit s =>
      rw [tmplFieldNames_lit]
      constructor
      · rintro ⟨r, hr⟩ n hn
        simp only [fillParts] at hr
        match hfill : fillParts rest ctx with
        | .error m => rw [hfill] at hr; simp [Except.map] at hr
        | .ok r2 => exact (ih.mp ⟨r2, hfill⟩) n hn
      · intro h
        obtain ⟨r, hr⟩ := ih.mpr h
        exact ⟨s ++ r, by simp [fillParts, hr, Except.map]⟩
    | fld n =>
      rw [tmplFieldNames_fld]
      constructor
      · rintro ⟨r, hr⟩ m hm
        simp only [fillParts] at hr
        match hg : dget ctx n with
        | none => rw [hg] at hr; simp at hr
        | some v =>
          rw [hg] at hr
          rcases List.mem_cons.mp hm with rfl | hm2
          · simp [hasKey, hg]
          · match hfill : fillParts rest ctx with
            | .error m2 => rw [hfill] at hr; simp [Except.map] at hr
            | .ok r2 => exact (ih.mp ⟨r2, hfill⟩) m hm2
      · intro h
        have hn : hasKey ctx n = true := h n (List.mem_cons_self n _)
        match hg : dget ctx n with
        | none => simp [hasKey, hg] at hn
        | some v =>
          obtain ⟨r, hr⟩ :=
            ih.mpr (fun m hm => h m (List.mem_cons_of_mem n hm))
          exact ⟨pyShow v ++ r, by simp [fillParts, hg, hr, Except.map]⟩

theorem fillParts_error (t : Tmpl) (ctx : List (String × Option String))
    (n : String) (h : fillParts t ctx = .error n) :
    n ∈ tmplFieldNames t ∧ hasKey ctx n = false := by
  induction t with
  | nil => simp [fillParts] at h
  | cons p rest ih =>
    cases p with
    | lit s =>
      simp only [fillParts] at h
      match hfill : fillParts rest ctx with
      | .ok r => rw [hfill] at h; simp [Except.map] at h
      | .error m =>
        rw [hfill] at h
        simp only [Except.map] at h
        cases h
        have h2 := ih hfill
        exact ⟨by rw [tmplFieldNames_lit]; exact h2.1, h2.2⟩
    | fld m =>
      simp only [fillParts] at h
      match hg : dget ctx m with
      | none =>
        rw [hg] at h
        cases h
        refine ⟨?_, by simp [hasKey, hg]⟩
        rw [tmplFieldNames_fld]
        exact List.mem_cons_self _ _
      | some v =>
        rw [hg] at h
        match hfill : fillParts rest ctx with
        | .ok r => rw [hfill] at h; simp [Except.map] at h
        | .error m2 =>
          rw [hfill] at h
          simp only [Except.map] at h
          cases h
          have h2 := ih hfill
          refine ⟨?_, h2.2⟩
          rw [tmplFieldNames_fld]
          exact List.mem_cons_of_mem _ h2.1

theorem str_data_append (a b : String) : (a ++ b).data = a.data ++ b.data := rfl

theorem strmk_data (l : List Char) : (String.mk l).data = l := rfl

theorem strmk_data_eq (s : String) : String.mk s.data = s := rfl

theorem replaceFuel_no_occ (new old : List Char) :
    ∀ (fuel : Nat) (s : List Char), s.length ≤ fuel → ¬ old <:+: s →
      replaceFuel new old fuel s = s := by
  intro fuel
  induction fuel with
  | zero =>
    intro s hlen _
    cases s with
    | nil => rfl
    | cons c rest => simp at hlen
  | succ fuel ih =>
    intro s hlen hocc
    cases s with
    | nil => rfl
    | cons c rest =>
      have hpre : old.isPrefixOf (c :: rest) = false := by
        by_contra hc
        have : old.isPrefixOf (c :: rest) = true := by
          revert hc
          cases old.isPrefixOf (c :: rest) <;> simp
        exact hocc ((List.isPrefixOf_iff_prefix.mp this).isInfix)
      have hocc2 : ¬ old <:+: rest := fun h2 => hocc (List.infix_cons h2)
      simp only [replaceFuel, hpre]
      rw [if_neg (by simp [hpre])]
      have hlen2 : rest.length ≤ fuel := by
        simpa using Nat.succ_le_succ_iff.mp hlen
      rw [ih rest hlen2 hocc2]

theorem replaceFuel_strip (new old f : List Char) (fuel : Nat)
    (hne : old ≠ []) (hocc : ¬ old <:+: f)
    (hfuel : old.length + f.length ≤ fuel + 1) :
    replaceFuel new old (fuel + 1) (old ++ f) = new ++ f := by
  match old, hne with
  | o :: ot, _ =>
    have hpre : (o :: ot).isPrefixOf (o :: (ot ++ f)) = true :=
      List.isPrefixOf_iff_prefix.mpr ⟨f, by simp⟩
    have hcons : (o :: ot) ++ f = o :: (ot ++ f) := rfl
    rw [hcons]
    simp only [replaceFuel]
    rw [if_pos ⟨by simp, hpre⟩]
    have hdrop : (ot ++ f).drop ((o :: ot).length - 1) = f := by
      simp [List.drop_left]
    rw [hdrop]
    have hlen : f.length ≤ fuel := by
      have : ot.length + 1 + f.length ≤ fuel + 1 := by
        simpa [List.length_cons] using hfuel
      omega
    rw [replaceFuel_no_occ new (o :: ot) fuel f hlen hocc]

/-- Stripping a genuine attribute prefix: when `old` does not occur inside
`f`, Python `(old + f).replace(old, "")` returns exactly `f`. -/
theorem strReplace_strip (old f : String) (hne : old.data ≠ [])
    (hocc : ¬ old.data <:+: f.data) :
    strReplace (old ++ f) old "" = f := by
  have hlen : (old ++ f).data.length = old.data.length + f.data.length := by
    rw [str_data_append, List.length_append]
  have hpos : 1 ≤ old.data.length := by
    cases hO : old.data with
    | nil => exact absurd hO hne
    | cons c rest => simp
  obtain ⟨m, hm⟩ : ∃ m, (old.data ++ f.data).length = m + 1 := by
    refine ⟨old.data.length + f.data.length - 1, ?_⟩
    simp only [List.length_append]
    omega
  show String.mk (replaceFuel [] old.data ((old ++ f).data.length)
    ((old ++ f).data)) = f
  rw [str_data_append, hm]
  have hfuel : old.data.length + f.data.length ≤ m + 1 := by
    rw [← hm]
    simp [List.length_append]
  rw [replaceFuel_strip [] old.data f.data m hne hocc hfuel]
  simp [strmk_data_eq]

theorem not_infix_of_missing_char {c : Char} {l1 l2 : List Char}
    (h1 : c ∈ l1) (h2 : c ∉ l2) : ¬ l1 <:+: l2 :=
  fun hinf => h2 (hinf.subset h1)

theorem getSegmentDetailsGo_abort (cfg : Config) (e : Experiment)
    (k : String) (er : Err) (post : List String)
    (hk : resolveSegment cfg e k = .error er) :
    ∀ (pre : List String) (acc : List (String × Bundle)),
      (∀ s ∈ pre, (resolveSegment cfg e s).isOk = true) →
      getSegmentDetailsGo cfg e (pre ++ k :: post) acc = .error er := by
  intro pre
  induction pre with
  | nil =>
    intro acc _
    simp only [List.nil_append, getSegmentDetailsGo, hk]
  | cons s rest ih =>
    intro acc hpre
    have hs : (resolveSegment cfg e s).isOk = true :=
      hpre s (List.mem_cons_self s rest)
    match hres : resolveSegment cfg e s with
    | .error er2 => rw [hres] at hs; simp [Except.isOk, Except.toBool] at hs
    | .ok b =>
      simp only [List.cons_append, getSegmentDetailsGo, hres]
      exact ih (dinsert acc s b)
        (fun s2 hs2 => hpre s2 (List.mem_cons_of_mem s hs2))

/-- C1: for every experiment and segment key of `config.segment_list`
reached by resolution (every earlier segment resolves), if the bundle
built for that key has no `id` field after field resolution, then
`get_segment_details` raises `MissingSegmentIdentifier` naming exactly
that key, the whole resolution returns that error (so no bundle for any
later segment of the list is produced), and `write_segment_info` —
which materializes files only after a successful resolution — raises the
same error without materializing anything. -/
theorem C1_missing_id_aborts (cfg : Config) (e : Experiment)
    (pre : List String) (k : String) (post : List String) (b : Bundle)
    (hlist : cfg.segment_list = pre ++ k :: post)
    (hpre : ∀ s ∈ pre, (resolveSegment cfg e s).isOk = true)
    (hb : preIdBundle cfg e k = .ok b)
    (hid : hasKey b "id" = false) :
    getSegmentDetails cfg e = .error (.missingSegmentIdentifier k) ∧
    ∀ (dir : String) (fs : FS) (now : Nat),
      writeSegmentInfo cfg e dir fs now =
        .error (.missingSegmentIdentifier k) := by
  have hk : resolveSegment cfg e k = .error (.missingSegmentIdentifier k) := by
    simp only [resolveSegment, hb, hid]
    simp
  have hmain : getSegmentDetails cfg e = .error (.missingSegmentIdentifier k) := by
    rw [getSegmentDetails, hlist]
    exact getSegmentDetailsGo_abort cfg e k _ post hk pre [] hpre
  refine ⟨hmain, fun dir fs now => ?_⟩
  simp only [writeSegmentInfo, hmain]

/-- Witness for C1 at a concrete input: segment `p` resolves, segment `q`
has a field but no id, so the whole resolution and the write both fail
with `MissingSegmentIdentifier "q"`. -/
theorem C1_missing_id_aborts_witness :
    getSegmentDetails cfgC1 expC1 = .error (.missingSegmentIdentifier "q") ∧
    writeSegmentInfo cfgC1 expC1 "/out" [] 0 =
      .error (.missingSegmentIdentifier "q") := by
  have h := C1_missing_id_aborts cfgC1 expC1 ["p"] "q" []
    [("foo", some "2"), ("run", some "q"), ("raw_data_path", none)]
    (by decide) (by decide) rfl (by decide)
  exact ⟨h.1, h.2 "/out" [] 0⟩

theorem createConverter_spec (e : Experiment) (dir : String)
    (conv : Option Conv) (logs : List String) (info : Bundle)
    (r : String) (dst : Option String)
    (hraw : dget info "raw_data_path" = some (some r))
    (hfrdp : dget info "final_raw_data_path" = some dst) :
    createConverter e dir conv logs info =
      (if splitExtExt r = ".edf" then
        .ok (some (Conv.mk dst dir (dictUpdate e info)), logs)
      else .ok (conv, logs ++ ["Unknown file format: " ++ splitExtExt r])) := by
  simp only [createConverter, hraw, hfrdp]

theorem processSegment_run (cfg : Config) (e : Experiment) (dir : String)
    (now : Nat) (st : WState) (k : String) (b : Bundle) (info : Bundle)
    (r fp : String) (f : File)
    (hinfo : getSegmentDataPath cfg e b = .ok info)
    (hraw : dget info "raw_data_path" = some (some r))
    (hr : r ≠ "")
    (hfp : dget info "final_path" = some (some fp))
    (hsrc : dget st.fs r = some f) :
    processSegment cfg e dir now st (k, b) =
      (let dst := pjoin dir (baseName fp)
       let fs2 := dinsert st.fs dst (File.mk f.bytes now)
       let info2 := dinsert info "final_raw_data_path" (some dst)
       if splitExtExt r = ".edf" then
        .ok (WState.mk fs2 (some (Conv.mk (some dst) dir (dictUpdate e info2)))
          (st.conversions ++ [Conv.mk (some dst) dir (dictUpdate e info2)])
          st.logs, info2)
       else
        match st.converter with
        | none =>
          .ok (WState.mk fs2 none st.conversions
            (st.logs ++ ["Unknown file format: " ++ splitExtExt r] ++
              ["Modality " ++ pyShow cfg.modality ++ " has no converter"]),
            info2)
        | some c =>
          .ok (WState.mk fs2 (some c) (st.conversions ++ [c])
            (st.logs ++ ["Unknown file format: " ++ splitExtExt r]), info2)) := by
  have htruthy : truthyStr (dget info "raw_data_path") = some r := by
    simp [truthyStr, hraw, hr]
  have hraw2 : dget (dinsert info "final_raw_data_path"
      (some (pjoin dir (baseName fp)))) "raw_data_path" = some (some r) := by
    rw [dget_dinsert]
    simp [hraw]
  have hfrdp : dget (dinsert info "final_raw_data_path"
      (some (pjoin dir (baseName fp)))) "final_raw_data_path" =
      some (some (pjoin dir (baseName fp))) := by
    rw [dget_dinsert]
    simp
  simp only [processSegment, hinfo, htruthy, hfp, hsrc,
    createConverter_spec e dir st.converter st.logs _ r _ hraw2 hfrdp]
  by_cases hext : splitExtExt r = ".edf"
  · simp [hext]
  · match hc : st.converter with
    | none => simp [hext, hc, List.append_assoc]
    | some c => simp [hext, hc]

/-- C2: for a segment bundle whose `raw_data_path` is present and truthy,
the write step copies the source file to
`destination_dir / basename(final_path)` — the destination basename
comes from the templated output path — the destination's bytes equal
the source's bytes exactly, and that absolute path is recorded in the
bundle under `final_raw_data_path`. -/
theorem C2_materialize_roundtrip (cfg : Config) (e : Experiment)
    (dir : String) (now : Nat) (st : WState) (k : String) (b info : Bundle)
    (r fp : String) (f : File)
    (hinfo : getSegmentDataPath cfg e b = .ok info)
    (hraw : dget info "raw_data_path" = some (some r))
    (hr : r ≠ "")
    (hfp : dget info "final_path" = some (some fp))
    (hsrc : dget st.fs r = some f) :
    ∃ st2 b2, processSegment cfg e dir now st (k, b) = .ok (st2, b2) ∧
      st2.fs = dinsert st.fs (pjoin dir (baseName fp)) (File.mk f.bytes now) ∧
      (dget st2.fs (pjoin dir (baseName fp))).map File.bytes = some f.bytes ∧
      dget b2 "final_raw_data_path" = some (some (pjoin dir (baseName fp))) := by
  have hrun := processSegment_run cfg e dir now st k b info r fp f
    hinfo hraw hr hfp hsrc
  have hfs : (dget (dinsert st.fs (pjoin dir (baseName fp))
      (File.mk f.bytes now)) (pjoin dir (baseName fp))).map File.bytes =
      some f.bytes := by
    rw [dget_dinsert]
    simp
  have hrec : dget (dinsert info "final_raw_data_path"
      (some (pjoin dir (baseName fp)))) "final_raw_data_path" =
      some (some (pjoin dir (baseName fp))) := by
    rw [dget_dinsert]
    simp
  by_cases hext : splitExtExt r = ".edf"
  · refine ⟨WState.mk (dinsert st.fs (pjoin dir (baseName fp))
        (File.mk f.bytes now))
        (some (Conv.mk (some (pjoin dir (baseName fp))) dir
          (dictUpdate e (dinsert info "final_raw_data_path"
            (some (pjoin dir (baseName fp)))))))
        (st.conversions ++ [Conv.mk (some (pjoin dir (baseName fp))) dir
          (dictUpdate e (dinsert info "final_raw_data_path"
            (some (pjoin dir (baseName fp)))))])
        st.logs,
      dinsert info "final_raw_data_path" (some (pjoin dir (baseName fp))),
      ?_, rfl, hfs, hrec⟩
    rw [hrun]
    simp [hext]
  · match hc : st.converter with
    | none =>
      refine ⟨WState.mk (dinsert st.fs (pjoin dir (baseName fp))
          (File.mk f.bytes now)) none st.conversions
          (st.logs ++ ["Unknown file format: " ++ splitExtExt r] ++
            ["Modality " ++ pyShow cfg.modality ++ " has no converter"]),
        dinsert info "final_raw_data_path" (some (pjoin dir (baseName fp))),
        ?_, rfl, hfs, hrec⟩
      rw [hrun]
      simp [hext, hc]
    | some c =>
      refine ⟨WState.mk (dinsert st.fs (pjoin dir (baseName fp))
          (File.mk f.bytes now)) (some c) (st.conversions ++ [c])
          (st.logs ++ ["Unknown file format: " ++ splitExtExt r]),
        dinsert info "final_raw_data_path" (some (pjoin dir (baseName fp))),
        ?_, rfl, hfs, hrec⟩
      rw [hrun]
      simp [hext, hc]

/-- Witness for C2 at a concrete input. -/
theorem C2_materialize_roundtrip_witness :
    ∃ st2 b2,
      processSegment cfgC2 expC2 "/out" 7 stC2 ("s1", bC2) = .ok (st2, b2) ∧
      st2.fs = dinsert stC2.fs (pjoin "/out" (baseName "sub-1_s1_data"))
        (File.mk (File.mk "AA" 0).bytes 7) ∧
      (dget st2.fs (pjoin "/out" (baseName "sub-1_s1_data"))).map File.bytes =
        some (File.mk "AA" 0).bytes ∧
      dget b2 "final_raw_data_path" =
        some (some (pjoin "/out" (baseName "sub-1_s1_data"))) :=
  C2_materialize_roundtrip cfgC2 expC2 "/out" 7 stC2 "s1" bC2 infoC2
    "/d/a.edf" "sub-1_s1_data" (File.mk "AA" 0) rfl (by decide) (by decide)
    (by decide) (by decide)

/-- Counterexample to C4 as stated: segment `s1` has a `.edf` raw file and
installs a converter; segment `s2` has a `.xyz` raw file, for which no
converter is registered — yet a conversion IS invoked for `s2`, namely
the stale converter left over from `s1` (the run records two
`convert_bids_data` invocations, both with `s1`'s converted path, and
the converter is still set after the run). -/
theorem C4_counterexample_stale_converter :
    (writeSegmentInfo cfgC4 expC4 "/out" fsC4 7).map
        (fun st => st.conversions.map Conv.raw) =
      .ok [some "/out/sub-1_s1_data", some "/out/sub-1_s1_data"] ∧
    (writeSegmentInfo cfgC4 expC4 "/out" fsC4 7).map
        (fun st => st.converter.isSome) = .ok true := by
  constructor
  · rfl
  · rfl

/-- C4 as amended: for a segment whose raw file has an extension with no
registered converter (anything but `.edf`), dispatch logs the unknown
format and does not install a new converter, and the step does not raise
— the loop proceeds to the next segment.  Provided no earlier segment
of the run installed a converter (`self.converter` is still `None`), no
conversion is invoked for this segment; a converter installed by an
earlier segment would instead be invoked again here. -/
theorem C4_unknown_ext_amended (cfg : Config) (e : Experiment)
    (dir : String) (now : Nat) (st : WState) (k : String) (b info : Bundle)
    (r fp : String) (f : File)
    (hconv : st.converter = none)
    (hinfo : getSegmentDataPath cfg e b = .ok info)
    (hraw : dget info "raw_data_path" = some (some r))
    (hr : r ≠ "")
    (hfp : dget info "final_path" = some (some fp))
    (hsrc : dget st.fs r = some f)
    (hext : splitExtExt r ≠ ".edf") :
    ∃ st2 b2, processSegment cfg e dir now st (k, b) = .ok (st2, b2) ∧
      st2.converter = none ∧
      st2.conversions = st.conversions ∧
      st2.logs = st.logs ++ ["Unknown file format: " ++ splitExtExt r,
        "Modality " ++ pyShow cfg.modality ++ " has no converter"] ∧
      ∀ rest, writeSegmentsGo cfg e dir now ((k, b) :: rest) st =
        writeSegmentsGo cfg e dir now rest st2 := by
  have hrun := processSegment_run cfg e dir now st k b info r fp f
    hinfo hraw hr hfp hsrc
  rw [if_neg hext, hconv] at hrun
  refine ⟨WState.mk (dinsert st.fs (pjoin dir (baseName fp))
      (File.mk f.bytes now)) none st.conversions
      (st.logs ++ ["Unknown file format: " ++ splitExtExt r] ++
        ["Modality " ++ pyShow cfg.modality ++ " has no converter"]),
    dinsert info "final_raw_data_path" (some (pjoin dir (baseName fp))),
    by rw [hrun], rfl, rfl, by simp, ?_⟩
  intro rest
  simp only [writeSegmentsGo, hrun]

/-- Witness for the amended C4 at a concrete input. -/
theorem C4_unknown_ext_amended_witness :
    ∃ st2 b2,
      processSegment cfgC4 expC4 "/out" 7 stC4 ("s2", bC4) = .ok (st2, b2) ∧
      st2.converter = none ∧
      st2.conversions = stC4.conversions ∧
      st2.logs = stC4.logs ++
        ["Unknown file format: " ++ splitExtExt "/d/b.xyz",
         "Modality " ++ pyShow cfgC4.modality ++ " has no converter"] ∧
      ∀ rest, writeSegmentsGo cfgC4 expC4 "/out" 7 (("s2", bC4) :: rest) stC4 =
        writeSegmentsGo cfgC4 expC4 "/out" 7 rest st2 :=
  C4_unknown_ext_amended cfgC4 expC4 "/out" 7 stC4 "s2" bC4 infoC4
    "/d/b.xyz" "sub-1_s2_data" (File.mk "BB" 0) rfl rfl (by decide)
    (by decide) (by decide) (by decide) (by decide)

/-- C3: path rendering builds its context from the full experiment record
overlaid with all bundle fields (bundle wins on key collision) and a
`modality` entry from the global configuration defaulting to `unknown`
(the injected `modality` always wins); it fails with
`MissingTemplateField` exactly on a template field absent from that
context, and succeeds — never substituting an empty string — exactly
when every referenced field is present. -/
theorem C3_render_context (cfg : Config) (e : Experiment) (b : Bundle)
    (hb : (b.map Prod.fst).Nodup) :
    (∀ n, dget (renderContext cfg e b) n =
      (if n = "modality" then some (some (cfg.modality.getD "unknown"))
       else (dget b n).or (dget e n))) ∧
    (∀ n, getSegmentDataPath cfg e b = .error (.missingTemplateField n) →
      n ∈ tmplFieldNames cfg.data_file_format ∧
      hasKey (renderContext cfg e b) n = false) ∧
    ((∃ b2, getSegmentDataPath cfg e b = .ok b2) ↔
      ∀ n ∈ tmplFieldNames cfg.data_file_format,
        hasKey (renderContext cfg e b) n = true) := by
  refine ⟨?_, ?_, ?_⟩
  · intro n
    by_cases h : n = "modality"
    · simp [renderContext, dget_dinsert, h]
    · rw [renderContext, dget_dinsert, if_neg h, if_neg h,
        dget_dictUpdate e b hb n]
  · intro n h
    simp only [getSegmentDataPath] at h
    match hfill : fillParts cfg.data_file_format (renderContext cfg e b) with
    | .ok s => rw [hfill] at h; simp at h
    | .error m =>
      rw [hfill] at h
      have hm : m = n := by
        have := h
        simp only [Except.error.injEq, Err.missingTemplateField.injEq] at this
        exact this
      subst hm
      exact fillParts_error _ _ m hfill
  · constructor
    · rintro ⟨b2, hb2⟩
      simp only [getSegmentDataPath] at hb2
      match hfill : fillParts cfg.data_file_format (renderContext cfg e b) with
      | .error m => rw [hfill] at hb2; simp at hb2
      | .ok s =>
        exact (fillParts_ok_iff cfg.data_file_format
          (renderContext cfg e b)).mp ⟨s, hfill⟩
    · intro h
      obtain ⟨s, hs⟩ := (fillParts_ok_iff cfg.data_file_format
        (renderContext cfg e b)).mpr h
      exact ⟨dinsert b "final_path" (some s), by simp [getSegmentDataPath, hs]⟩

/-- Witness for C3 at a concrete input: the bundle overrides the shared
field, the experiment supplies its own, modality is injected, and a
template referencing a missing field fails with that field's name. -/
theorem C3_render_context_witness :
    (∀ n, dget (renderContext cfgC2 expC2 bC2) n =
      (if n = "modality" then some (some (cfgC2.modality.getD "unknown"))
       else (dget bC2 n).or (dget expC2 n))) ∧
    (∀ n, getSegmentDataPath cfgC2 expC2 bC2 =
        .error (.missingTemplateField n) →
      n ∈ tmplFieldNames cfgC2.data_file_format ∧
      hasKey (renderContext cfgC2 expC2 bC2) n = false) ∧
    ((∃ b2, getSegmentDataPath cfgC2 expC2 bC2 = .ok b2) ↔
      ∀ n ∈ tmplFieldNames cfgC2.data_file_format,
        hasKey (renderContext cfgC2 expC2 bC2) n = true) :=
  C3_render_context cfgC2 expC2 bC2 (by decide)

/-- C5 as amended: when the destination exists and the mode is not
tolerant (`exist_ok=False`), creation fails with `DestinationExists` and
the file system — the destination in particular — is unchanged; when
tolerant, source and destination must compare equal under `filecmp`'s
shallow comparison (equal size and modification time, or equal bytes
otherwise), else the operation fails with `ContentMismatch` leaving the
file system unchanged; when they compare equal the old destination is
removed before re-creating it with the new mode (and an invalid mode
raises only after that removal). -/
theorem C5_conflict_policy_amended (fs : FS) (src dst mode : String)
    (ex_ok : Bool) (now : Nat) (sf df : File)
    (hsrc : dget fs src = some sf)
    (hdst : dget fs dst = some df)
    (hne : src ≠ dst) :
    (ex_ok = false →
      createFile fs src dst mode ex_ok now =
        (fs, some (.destinationExists dst))) ∧
    (ex_ok = true → cmpShallow sf df = false →
      createFile fs src dst mode ex_ok now =
        (fs, some (.contentMismatch src dst))) ∧
    (ex_ok = true → cmpShallow sf df = true →
      (mode = "copy" →
        createFile fs src dst mode ex_ok now =
          (dinsert (dremove fs dst) dst (File.mk sf.bytes now), none)) ∧
      (mode = "link" →
        createFile fs src dst mode ex_ok now =
          (dinsert (dremove fs dst) dst sf, none)) ∧
      (mode = "move" →
        createFile fs src dst mode ex_ok now =
          (dinsert (dremove (dremove fs dst) src) dst sf, none)) ∧
      (mode ≠ "copy" → mode ≠ "link" → mode ≠ "move" →
        createFile fs src dst mode ex_ok now =
          (dremove fs dst, some (.invalidFileMode mode)))) := by
  have hsrc2 : dget (dremove fs dst) src = some sf := by
    rw [dget_dremove, if_neg hne, hsrc]
  refine ⟨?_, ?_, ?_⟩
  · intro hex
    subst hex
    simp [createFile, hdst]
  · intro hex hcmp
    subst hex
    simp [createFile, hdst, hsrc, hcmp]
  · intro hex hcmp
    subst hex
    have hstep : createFile fs src dst mode true now =
        createModes (dremove fs dst) src dst mode now := by
      simp [createFile, hdst, hsrc, hcmp]
    refine ⟨?_, ?_, ?_, ?_⟩
    · intro hm; subst hm; simp [hstep, createModes, hsrc2]
    · intro hm; subst hm; simp [hstep, createModes, hsrc2]
    · intro hm
      subst hm
      simp [hstep, createModes, hsrc2]
    · intro h1 h2 h3
      rw [hstep]
      simp [createModes, h1, h2, h3]

/-- Counterexample to C5 as stated: the source holds bytes `ab`, the
existing destination holds different bytes `xy`, but the two stat
signatures (size 2, mtime 5) coincide, so the tolerant mode's
`filecmp.cmp(shallow=True)` check passes: `create_file` succeeds and
replaces the destination instead of failing with `ContentMismatch` —
byte-identical content is not actually required. -/
theorem C5_counterexample_shallow_compare :
    (File.mk "ab" 5).bytes ≠ (File.mk "xy" 5).bytes ∧
    (createFile fsC5 "/s" "/d" "copy" true 9).2 = none ∧
    (createFile fsC5 "/s" "/d" "copy" true 9).1 =
      dinsert (dremove fsC5 "/d") "/d" (File.mk "ab" 9) := by
  exact ⟨by decide, rfl, rfl⟩

/-- Witness for the amended C5 at a concrete input. -/
theorem C5_conflict_policy_amended_witness :
    ((false = false →
      createFile fsC5 "/s" "/d" "copy" false 9 =
        (fsC5, some (.destinationExists "/d"))) ∧
    (false = true → cmpShallow (File.mk "ab" 5) (File.mk "xy" 5) = false →
      createFile fsC5 "/s" "/d" "copy" false 9 =
        (fsC5, some (.contentMismatch "/s" "/d"))) ∧
    (false = true → cmpShallow (File.mk "ab" 5) (File.mk "xy" 5) = true →
      ("copy" = "copy" →
        createFile fsC5 "/s" "/d" "copy" false 9 =
          (dinsert (dremove fsC5 "/d") "/d"
            (File.mk (File.mk "ab" 5).bytes 9), none)) ∧
      ("copy" = "link" →
        createFile fsC5 "/s" "/d" "copy" false 9 =
          (dinsert (dremove fsC5 "/d") "/d" (File.mk "ab" 5), none)) ∧
      ("copy" = "move" →
        createFile fsC5 "/s" "/d" "copy" false 9 =
          (dinsert (dremove (dremove fsC5 "/d") "/s") "/d"
            (File.mk "ab" 5), none)) ∧
      ("copy" ≠ "copy" → "copy" ≠ "link" → "copy" ≠ "move" →
        createFile fsC5 "/s" "/d" "copy" false 9 =
          (dremove fsC5 "/d", some (.invalidFileMode "copy"))))) :=
  C5_conflict_policy_amended fsC5 "/s" "/d" "copy" false 9
    (File.mk "ab" 5) (File.mk "xy" 5) (by decide) (by decide) (by decide)

theorem registerGate_all_ok (exts : List String) (files : List String)
    (hok : ∀ f ∈ files, exts.contains (pathSuffix f) = true) :
    registerGate exts none files = .ok files := by
  induction files with
  | nil => rfl
  | cons f rest ih =>
    have hf : exts.contains (pathSuffix f) = true :=
      hok f (List.mem_cons_self f rest)
    have hrest := ih (fun g hg => hok g (List.mem_cons_of_mem f hg))
    simp only [registerGate, registerTransform, hf, if_pos, hrest]

/-- C8: `register` builds its composite key by concatenating `task-{task}`
and `run-{run}` in that fixed order, each only when provided, joined by
an underscore when both are present and empty when neither is; and
registering files under a key that already holds a list appends them
after the previously registered files, in call order, leaving every
other key untouched (a fresh key gets exactly the given files). -/
theorem C8_register_key_append (d : NWData) (files : List String)
    (task run : Option String) (exts : List String)
    (hok : ∀ f ∈ files, exts.contains (pathSuffix f) = true) :
    (mkKey none none = "" ∧
     (∀ t, mkKey (some t) none = "task-" ++ t) ∧
     (∀ r, mkKey none (some r) = "run-" ++ r) ∧
     (∀ t r, mkKey (some t) (some r) = "task-" ++ t ++ "_run-" ++ r)) ∧
    ∃ d2, registerDataFiles d files task run exts none = .ok d2 ∧
      dget d2.data (mkKey task run) =
        some ((dget d.data (mkKey task run)).getD [] ++ files) ∧
      (∀ k, k ≠ mkKey task run → dget d2.data k = dget d.data k) := by
  constructor
  · refine ⟨rfl, fun t => rfl, fun r => by simp [mkKey], fun t r => ?_⟩
    have hne : ("task-" ++ t : String) ≠ "" := by
      intro h
      have h2 := congrArg String.data h
      rw [str_data_append] at h2
      simp at h2
    have hassoc : ("task-" ++ t ++ "_") ++ "run-" =
        "task-" ++ t ++ ("_" ++ "run-") :=
      congrArg String.mk
        (List.append_assoc ("task-" ++ t).data "_".data "run-".data)
    have hlit : ("_" : String) ++ "run-" = "_run-" := rfl
    simp only [mkKey, if_neg hne, hassoc, hlit]
  · have hgate := registerGate_all_ok exts files hok
    simp only [registerDataFiles, hgate]
    match hold : dget d.data (mkKey task run) with
    | none =>
      refine ⟨_, rfl, ?_, ?_⟩
      · simp [hold, dget_dinsert]
      · intro k hk
        simp only [dget_dinsert, if_neg hk]
    | some old =>
      refine ⟨_, rfl, ?_, ?_⟩
      · simp [hold, dget_dinsert]
      · intro k hk
        simp only [dget_dinsert, if_neg hk]

/-- Witness for C8 at a concrete input: re-registering under the existing
key `run-01` appends the new files after `/r/F0.abf`. -/
theorem C8_register_key_append_witness :
    (mkKey none none = "" ∧
     (∀ t, mkKey (some t) none = "task-" ++ t) ∧
     (∀ r, mkKey none (some r) = "run-" ++ r) ∧
     (∀ t r, mkKey (some t) (some r) = "task-" ++ t ++ "_run-" ++ r)) ∧
    ∃ d2, registerDataFiles dC8 ["/r/F1.abf", "/r/F2.abf"] none (some "01")
        [".abf"] none = .ok d2 ∧
      dget d2.data (mkKey none (some "01")) =
        some ((dget dC8.data (mkKey none (some "01"))).getD [] ++
          ["/r/F1.abf", "/r/F2.abf"]) ∧
      (∀ k, k ≠ mkKey none (some "01") → dget d2.data k = dget dC8.data k) :=
  C8_register_key_append dC8 ["/r/F1.abf", "/r/F2.abf"] none (some "01")
    [".abf"] (by decide)

theorem runPlan_trace (mode outfmt : String) (now : Nat) :
    ∀ (plan : List (String × String)) (fs fs2 : FS) (tr : List String),
      runPlan mode outfmt now plan fs = (fs2, tr, none) →
      tr = plan.map Prod.snd := by
  intro plan
  induction plan with
  | nil =>
    intro fs fs2 tr h
    simp only [runPlan, Prod.mk.injEq] at h
    simp [h.2.1.symm]
  | cons p rest ih =>
    obtain ⟨src, dst⟩ := p
    intro fs fs2 tr h
    simp only [runPlan] at h
    match hstep : orgStep mode outfmt now fs src dst with
    | (fsx, some er) =>
      rw [hstep] at h
      simp at h
    | (fsx, none) =>
      rw [hstep] at h
      match hrest : runPlan mode outfmt now rest fsx with
      | (fs3, tr3, r3) =>
        simp only [hrest, Prod.mk.injEq] at h
        obtain ⟨h1, h2, h3⟩ := h
        subst h3
        rw [← h2, List.map_cons, ih fsx fs3 tr3 hrest]

/-- C7 as amended: whenever `organize_data_files` completes without
raising, the destinations it wrote, in order, are exactly those of every
`(key, file_list)` pair in registration order: in modes other than
`convert`, the file at 0-based position `i` of `file_list` goes to
`stem + key + split + '_ephys' + suffix` under the data folder, where
`split` is empty when the list has exactly one file and `_split-{i}`
when it has more — matching registration order exactly; in `convert`
mode, however, no split suffix (and no `_ephys` postfix) is added, so
all files of one key share a single destination. -/
theorem C7_split_destinations (d : NWData) (fs : FS) (mode outfmt : String)
    (now : Nat) (fs2 : FS) (tr : List String) (bd stem : String)
    (hbd : d.basedir = some bd)
    (hstem : d.filename_stem = some stem)
    (hephys : d.ephys_type = "ice")
    (hrun : organizeDataFiles d fs mode outfmt now = (fs2, tr, none)) :
    (mode ≠ "convert" →
      tr = d.data.flatMap (fun p => p.2.enum.map (fun q =>
        pjoin (pjoin bd ("sub-" ++ d.sub_id ++ "/" ++ d.modality))
          (stem ++ keyPref p.1 ++
            (if p.2.length > 1 then "_split-" ++ toString q.1 else "") ++
            "_ephys" ++ pathSuffix q.2)))) ∧
    (mode = "convert" →
      tr = d.data.flatMap (fun p => p.2.enum.map (fun _ =>
        pjoin (pjoin bd ("sub-" ++ d.sub_id ++ "/" ++ d.modality))
          (stem ++ keyPref p.1 ++ "." ++ outfmt)))) := by
  have hice : ¬ (d.ephys_type = "ece") := by
    rw [hephys]
    decide
  have hfolder : getDataFolder d = .ok
      (pjoin bd ("sub-" ++ d.sub_id ++ "/" ++ d.modality)) := by
    simp [getDataFolder, hice, hephys, hbd]
  rw [organizeDataFiles, hbd, hstem, hfolder] at hrun
  have htr := runPlan_trace mode outfmt now _ fs fs2 tr hrun
  constructor
  · intro hmode
    rw [htr]
    simp only [organizePlan, newFilename, if_neg hmode, List.map_flatMap,
      List.map_map]
    rfl
  · intro hmode
    subst hmode
    rw [htr]
    simp only [organizePlan, newFilename, if_pos, List.map_flatMap,
      List.map_map]
    rfl

/-- Counterexample to C7 as stated: in `convert` mode, the three files
registered under `run-01` are all written to the same destination, with
no `_split-{i}` suffix at all — the run completes without error and
every planned destination is identical. -/
theorem C7_counterexample_convert_mode :
    (organizeDataFiles dC7 fsC7 "convert" "nwb" 3).2.1 =
      ["/b/sub-s/ephys/sub-s_run-01.nwb", "/b/sub-s/ephys/sub-s_run-01.nwb",
       "/b/sub-s/ephys/sub-s_run-01.nwb"] ∧
    (organizeDataFiles dC7 fsC7 "convert" "nwb" 3).2.2 = none := by
  exact ⟨rfl, rfl⟩

/-- Witness for the amended C7 at a concrete input: three files registered
in one call under `run-01`, organized with mode `link`, get destinations
suffixed `_split-0`, `_split-1`, `_split-2` in registration order. -/
theorem C7_split_destinations_witness :
    ("link" ≠ "convert" →
      (organizeDataFiles dC7 fsC7 "link" "nwb" 3).2.1 =
        dC7.data.flatMap (fun p => p.2.enum.map (fun q =>
          pjoin (pjoin "/b" ("sub-" ++ dC7.sub_id ++ "/" ++ dC7.modality))
            ("sub-s" ++ keyPref p.1 ++
              (if p.2.length > 1 then "_split-" ++ toString q.1 else "") ++
              "_ephys" ++ pathSuffix q.2)))) ∧
    ("link" = "convert" →
      (organizeDataFiles dC7 fsC7 "link" "nwb" 3).2.1 =
        dC7.data.flatMap (fun p => p.2.enum.map (fun _ =>
          pjoin (pjoin "/b" ("sub-" ++ dC7.sub_id ++ "/" ++ dC7.modality))
            ("sub-s" ++ keyPref p.1 ++ "." ++ "nwb")))) :=
  C7_split_destinations dC7 fsC7 "link" "nwb" 3
    (organizeDataFiles dC7 fsC7 "link" "nwb" 3).1
    (organizeDataFiles dC7 fsC7 "link" "nwb" 3).2.1 "/b" "sub-s"
    rfl rfl rfl (by rfl)

theorem cmpShallow_mkNew (mode : String) (sf : File) (m0 : Nat) :
    cmpShallow sf (mkNew mode sf m0) = true := by
  by_cases hm : mode = "copy"
  · simp only [mkNew, if_pos hm, cmpShallow]
    by_cases ht : sf.mtime = m0 <;> simp [ht]
  · simp only [mkNew, if_neg hm, cmpShallow]
    simp

theorem createFile_step_idem (fs : FS) (src dst mode : String)
    (now m0 : Nat) (sf : File)
    (hmode : mode = "link" ∨ mode = "copy")
    (hsrc : dget fs src = some sf)
    (hne : src ≠ dst)
    (hdst : dget fs dst = none ∨ dget fs dst = some (mkNew mode sf m0)) :
    ∃ fs2, createFile fs src dst mode true now = (fs2, none) ∧
      ∀ p, dget fs2 p =
        (if p = dst then some (mkNew mode sf now) else dget fs p) := by
  have hmodes : createModes fs src dst mode now =
      (dinsert fs dst (mkNew mode sf now), none) := by
    rcases hmode with hm | hm <;> subst hm <;>
      simp [createModes, hsrc, mkNew]
  have hmodes2 : createModes (dremove fs dst) src dst mode now =
      (dinsert (dremove fs dst) dst (mkNew mode sf now), none) := by
    have hsrc2 : dget (dremove fs dst) src = some sf := by
      rw [dget_dremove, if_neg hne, hsrc]
    rcases hmode with hm | hm <;> subst hm <;>
      simp [createModes, hsrc2, mkNew]
  rcases hdst with hd | hd
  · refine ⟨dinsert fs dst (mkNew mode sf now), ?_, ?_⟩
    · simp [createFile, hd, hmodes]
    · intro p
      rw [dget_dinsert]
  · refine ⟨dinsert (dremove fs dst) dst (mkNew mode sf now), ?_, ?_⟩
    · simp [createFile, hd, hsrc, cmpShallow_mkNew, hmodes2]
    · intro p
      rw [dget_dinsert, dget_dremove]
      by_cases hp : p = dst <;> simp [hp]

theorem runPlan_idem_core (mode outfmt : String) (now : Nat)
    (hmode : mode = "link" ∨ mode = "copy") :
    ∀ (plan : List (String × String)) (fs : FS),
      (plan.map Prod.snd).Nodup →
      (∀ q ∈ plan, q.1 ∉ plan.map Prod.snd) →
      (∀ q ∈ plan, ∃ sf, dget fs q.1 = some sf ∧
        (dget fs q.2 = none ∨ ∃ m0, dget fs q.2 = some (mkNew mode sf m0))) →
      ∃ fs2, runPlan mode outfmt now plan fs = (fs2, plan.map Prod.snd, none) ∧
        (∀ p, p ∉ plan.map Prod.snd → dget fs2 p = dget fs p) ∧
        (∀ q ∈ plan, dget fs2 q.2 =
          (dget fs q.1).map (fun sf => mkNew mode sf now)) := by
  have hconv : ¬ (mode = "convert") := by
    rcases hmode with hm | hm <;> subst hm <;> decide
  intro plan
  induction plan with
  | nil =>
    intro fs _ _ _
    exact ⟨fs, rfl, fun p _ => rfl, fun q hq => absurd hq (List.not_mem_nil q)⟩
  | cons item rest ih =>
    obtain ⟨src, dst⟩ := item
    intro fs hnd hsep hfiles
    have hnd2 : (rest.map Prod.snd).Nodup := (List.nodup_cons.mp hnd).2
    have hdstout : dst ∉ rest.map Prod.snd := (List.nodup_cons.mp hnd).1
    obtain ⟨sf, hsf, hd⟩ := hfiles (src, dst) (List.mem_cons_self _ _)
    have hsrcne : src ≠ dst := by
      intro hc
      have := hsep (src, dst) (List.mem_cons_self _ _)
      rw [List.map_cons] at this
      exact this (by rw [hc]; exact List.mem_cons_self _ _)
    have hd2 : dget fs dst = none ∨ dget fs dst = some (mkNew mode sf now) ∨
        ∃ m0, dget fs dst = some (mkNew mode sf m0) := by
      rcases hd with h | h
      · exact Or.inl h
      · exact Or.inr (Or.inr h)
    have hstepin : dget fs dst = none ∨
        ∃ m0, dget fs dst = some (mkNew mode sf m0) := hd
    obtain ⟨fs1, hstep, hchar⟩ : ∃ fs1,
        createFile fs src dst mode true now = (fs1, none) ∧
        ∀ p, dget fs1 p =
          (if p = dst then some (mkNew mode sf now) else dget fs p) := by
      rcases hstepin with h | ⟨m0, h⟩
      · exact createFile_step_idem fs src dst mode now 0 sf hmode hsf
          hsrcne (Or.inl h)
      · exact createFile_step_idem fs src dst mode now m0 sf hmode hsf
          hsrcne (Or.inr h)
    have hstep2 : orgStep mode outfmt now fs src dst = (fs1, none) := by
      rw [orgStep, if_neg hconv, hstep]
    have hrestfiles : ∀ q ∈ rest, ∃ sfq, dget fs1 q.1 = some sfq ∧
        (dget fs1 q.2 = none ∨
          ∃ m0, dget fs1 q.2 = some (mkNew mode sfq m0)) := by
      intro q hq
      obtain ⟨sfq, hsfq, hdq⟩ := hfiles q (List.mem_cons_of_mem _ hq)
      have hq1ne : q.1 ≠ dst := by
        intro hc
        have := hsep q (List.mem_cons_of_mem _ hq)
        rw [List.map_cons] at this
        exact this (by rw [hc]; exact List.mem_cons_self _ _)
      have hq2ne : q.2 ≠ dst := by
        intro hc
        exact hdstout (hc ▸ List.mem_map_of_mem Prod.snd hq)
      refine ⟨sfq, ?_, ?_⟩
      · rw [hchar q.1, if_neg hq1ne, hsfq]
      · rw [hchar q.2, if_neg hq2ne]
        exact hdq
    have hrestsep : ∀ q ∈ rest, q.1 ∉ rest.map Prod.snd := by
      intro q hq hc
      have := hsep q (List.mem_cons_of_mem _ hq)
      rw [List.map_cons] at this
      exact this (List.mem_cons_of_mem _ hc)
    obtain ⟨fs2, hrun, hout, hdests⟩ := ih fs1 hnd2 hrestsep hrestfiles
    refine ⟨fs2, ?_, ?_, ?_⟩
    · simp only [runPlan, hstep2, hrun, List.map_cons]
    · intro p hp
      rw [List.map_cons, List.mem_cons] at hp
      push_neg at hp
      rw [hout p hp.2, hchar p, if_neg hp.1]
    · intro q hq
      rcases List.mem_cons.mp hq with rfl | hq2
      · have : dget fs2 dst = dget fs1 dst := hout dst hdstout
        rw [this, hchar dst, if_pos rfl, hsf]
        rfl
      · have hq1ne : q.1 ≠ dst := by
          intro hc
          have := hsep q (List.mem_cons_of_mem _ hq2)
          rw [List.map_cons] at this
          exact this (by rw [hc]; exact List.mem_cons_self _ _)
        rw [hdests q hq2, hchar q.1, if_neg hq1ne]

/-- C9: calling `organize_data_files` twice in succession with mode `link`
or `copy`, source files unchanged in between, does not raise on the
second call: both calls succeed with the same destination trace, the
second call re-creates exactly the files of the first (no path gains or
loses a file), and the registered `data` mapping — which `organize`
never modifies — is the same for both calls, so no files are duplicated
under any composite key. -/
theorem C9_organize_idempotent (d : NWData) (fs : FS) (mode outfmt : String)
    (now1 now2 : Nat) (bd stem : String) (plan : List (String × String))
    (hmode : mode = "link" ∨ mode = "copy")
    (hbd : d.basedir = some bd)
    (hstem : d.filename_stem = some stem)
    (hephys : d.ephys_type = "ice")
    (hplan : organizePlan mode outfmt
      (pjoin bd ("sub-" ++ d.sub_id ++ "/" ++ d.modality)) stem d.data = plan)
    (hnd : (plan.map Prod.snd).Nodup)
    (hsep : ∀ q ∈ plan, q.1 ∉ plan.map Prod.snd)
    (hinit : ∀ q ∈ plan, (dget fs q.1).isSome = true ∧ dget fs q.2 = none) :
    ∃ fs1 fs2 tr,
      organizeDataFiles d fs mode outfmt now1 = (fs1, tr, none) ∧
      organizeDataFiles d fs1 mode outfmt now2 = (fs2, tr, none) ∧
      ∀ p, (dget fs2 p).isSome = (dget fs1 p).isSome := by
  have hice : ¬ (d.ephys_type = "ece") := by
    rw [hephys]
    decide
  have hfolder : getDataFolder d = .ok
      (pjoin bd ("sub-" ++ d.sub_id ++ "/" ++ d.modality)) := by
    simp [getDataFolder, hice, hephys, hbd]
  have hfiles1 : ∀ q ∈ plan, ∃ sf, dget fs q.1 = some sf ∧
      (dget fs q.2 = none ∨ ∃ m0, dget fs q.2 = some (mkNew mode sf m0)) := by
    intro q hq
    obtain ⟨hs, hd⟩ := hinit q hq
    obtain ⟨sf, hsf⟩ := Option.isSome_iff_exists.mp hs
    exact ⟨sf, hsf, Or.inl hd⟩
  obtain ⟨fs1, hrun1, hout1, hdst1⟩ :=
    runPlan_idem_core mode outfmt now1 hmode plan fs hnd hsep hfiles1
  have hfiles2 : ∀ q ∈ plan, ∃ sf, dget fs1 q.1 = some sf ∧
      (dget fs1 q.2 = none ∨
        ∃ m0, dget fs1 q.2 = some (mkNew mode sf m0)) := by
    intro q hq
    obtain ⟨hs, _⟩ := hinit q hq
    obtain ⟨sf, hsf⟩ := Option.isSome_iff_exists.mp hs
    have hq1 : dget fs1 q.1 = some sf := by
      rw [hout1 q.1 (hsep q hq), hsf]
    refine ⟨sf, hq1, Or.inr ⟨now1, ?_⟩⟩
    rw [hdst1 q hq, hsf]
    rfl
  obtain ⟨fs2, hrun2, hout2, hdst2⟩ :=
    runPlan_idem_core mode outfmt now2 hmode plan fs1 hnd hsep hfiles2
  refine ⟨fs1, fs2, plan.map Prod.snd, ?_, ?_, ?_⟩
  · simp only [organizeDataFiles, hbd, hstem, hfolder, hplan, hrun1]
  · simp only [organizeDataFiles, hbd, hstem, hfolder, hplan, hrun2]
  · intro p
    by_cases hp : p ∈ plan.map Prod.snd
    · obtain ⟨q, hq, hq2⟩ := List.mem_map.mp hp
      obtain ⟨sf, hsf, _⟩ := hfiles2 q hq
      have h2 : dget fs2 p = some (mkNew mode sf now2) := by
        rw [← hq2, hdst2 q hq, hsf]
        rfl
      obtain ⟨sf0, hsf0, _⟩ := hfiles1 q hq
      have h1 : dget fs1 p = some (mkNew mode sf0 now1) := by
        rw [← hq2, hdst1 q hq, hsf0]
        rfl
      rw [h1, h2]
      rfl
    · rw [hout2 p hp]

/-- Witness for C9 at a concrete input (mode `copy`, two registered
runs). -/
theorem C9_organize_idempotent_witness :
    ∃ fs1 fs2 tr,
      organizeDataFiles dC9 fsC9 "copy" "nwb" 3 = (fs1, tr, none) ∧
      organizeDataFiles dC9 fs1 "copy" "nwb" 5 = (fs2, tr, none) ∧
      ∀ p, (dget fs2 p).isSome = (dget fs1 p).isSome :=
  C9_organize_idempotent dC9 fsC9 "copy" "nwb" 3 5 "/b" "sub-s" planC9
    (Or.inr rfl) rfl rfl rfl (by decide) (by decide) (by decide) (by decide)

theorem str_append_assoc (a b c : String) : a ++ b ++ c = a ++ (b ++ c) :=
  congrArg String.mk (List.append_assoc a.data b.data c.data)

theorem hasKey_of_mem {α : Type} (d : List (String × α)) (k : String)
    (h : k ∈ d.map Prod.fst) : hasKey d k = true := by
  induction d with
  | nil => simp at h
  | cons p rest ih =>
    by_cases hp : p.1 = k
    · simp [hasKey, dget, hp]
    · rw [List.map_cons, List.mem_cons] at h
      rcases h with h | h
      · exact absurd h.symm hp
      · simpa [hasKey, dget, hp] using ih h

theorem mem_of_hasKey {α : Type} (d : List (String × α)) (k : String)
    (h : hasKey d k = true) : k ∈ d.map Prod.fst := by
  induction d with
  | nil => simp [hasKey, dget] at h
  | cons p rest ih =>
    by_cases hp : p.1 = k
    · rw [List.map_cons]
      exact hp ▸ List.mem_cons_self _ _
    · rw [List.map_cons]
      refine List.mem_cons_of_mem _ (ih ?_)
      obtain ⟨p1, p2⟩ := p
      simpa [hasKey, dget, hp] using h

theorem strStartsWith_append (a b : String) :
    strStartsWith (a ++ b) a = true := by
  rw [strStartsWith, str_data_append]
  exact List.isPrefixOf_iff_prefix.mpr (List.prefix_append a.data b.data)

/-- Stripping the scan prefix from an attribute name `seg ++ "_" ++ f`
returns exactly `f` whenever `f` does not itself contain `seg ++ "_"`. -/
theorem strReplace_scan (seg f : String)
    (hocc : ¬ (seg ++ "_").data <:+: f.data) :
    strReplace (seg ++ "_" ++ f) (seg ++ "_") "" = f := by
  apply strReplace_strip
  · rw [str_data_append]
    simp
  · exact hocc

theorem no_underscore_no_occ (seg f : String) (h : '_' ∉ f.data) :
    ¬ (seg ++ "_").data <:+: f.data :=
  not_infix_of_missing_char
    (by rw [str_data_append]; exact List.mem_append_right _ (by decide)) h

theorem customAttrName_ok (cfg : Config) (seg f : String)
    (hcust : customPatternOk cfg) :
    customAttrName cfg seg f = .ok (customAttrD cfg seg f) := by
  obtain ⟨s, hs⟩ := (fillParts_ok_iff cfg.custom_pattern
      [(cfg.segment_type ++ "_key", some seg), ("field", some f),
        ("segment_key", some seg)]).mpr (by
    intro n hn
    apply hasKey_of_mem
    rcases hcust n hn with h | h | h <;> simp [h])
  have h2 : customAttrName cfg seg f = .ok s := hs
  rw [h2]
  simp [customAttrD, h2]

theorem rawAttrName_ok (cfg : Config) (seg : String)
    (hraw : rawPatternOk cfg) :
    rawAttrName cfg seg = .ok (rawAttrD cfg seg) := by
  obtain ⟨s, hs⟩ := (fillParts_ok_iff cfg.raw_data_path_pattern
      [(cfg.segment_type ++ "_key", some seg),
        ("segment_key", some seg)]).mpr (by
    intro n hn
    apply hasKey_of_mem
    rcases hraw n hn with h | h <;> simp [h])
  have h2 : rawAttrName cfg seg = .ok s := hs
  rw [h2]
  simp [rawAttrD, h2]

/-- The per-field loop of `get_segment_details` under a well-formed custom
pattern: it never raises, and the resulting bundle holds, for every field
of the list, the value read from the custom-pattern-derived attribute
(all occurrences of one field write the same value). -/
theorem resolveFieldsLoop_ok (cfg : Config) (e : Experiment) (seg : String)
    (hcust : customPatternOk cfg) :
    ∀ (fields : List String) (b0 : Bundle),
      ∃ b, resolveFieldsLoop cfg e seg fields b0 = .ok b ∧
        ∀ f, dget b f =
          (if f ∈ fields then some (expGet e (customAttrD cfg seg f))
           else dget b0 f) := by
  intro fields
  induction fields with
  | nil =>
    intro b0
    exact ⟨b0, rfl, fun f => by simp⟩
  | cons f0 rest ih =>
    intro b0
    obtain ⟨b, hb, hchar⟩ := ih (dinsert b0 f0 (expGet e (customAttrD cfg seg f0)))
    refine ⟨b, ?_, ?_⟩
    · simp only [resolveFieldsLoop, customAttrName_ok cfg seg f0 hcust, hb]
    · intro f
      rw [hchar f]
      by_cases hf : f ∈ rest
      · simp [hf]
      · by_cases hf0 : f = f0
        · subst hf0
          simp [hf, dget_dinsert]
        · simp [hf, hf0, dget_dinsert]

/-- Full characterization of one successfully resolved segment bundle
under well-formed patterns: the id mirrors win, then `raw_data_path`,
then the segment-type entry, then the scanned fields. -/
theorem resolveSegment_char (cfg : Config) (e : Experiment) (seg : String)
    (hcust : customPatternOk cfg) (hraw : rawPatternOk cfg)
    (hst : cfg.segment_type ≠ "id")
    (hidf : "id" ∈ segScanFields e seg) :
    ∃ b, resolveSegment cfg e seg = .ok b ∧
      ∀ f, dget b f =
        (if f = "segment_id" then
          some (expGet e (customAttrD cfg seg "id"))
        else if f = cfg.segment_id_attr then
          some (expGet e (customAttrD cfg seg "id"))
        else if f = "raw_data_path" then
          some (expGet e (rawAttrD cfg seg))
        else if f = cfg.segment_type then some (some seg)
        else if f ∈ segScanFields e seg then
          some (expGet e (customAttrD cfg seg f))
        else none) := by
  obtain ⟨b0, hb0, hchar0⟩ :=
    resolveFieldsLoop_ok cfg e seg hcust (segScanFields e seg) []
  have hchar1 : ∀ f, dget (dinsert b0 cfg.segment_type (some seg)) f =
      (if f = cfg.segment_type then some (some seg)
       else if f ∈ segScanFields e seg then
        some (expGet e (customAttrD cfg seg f))
       else none) := by
    intro f
    rw [dget_dinsert]
    by_cases h1 : f = cfg.segment_type
    · simp [h1]
    · rw [if_neg h1, if_neg h1, hchar0 f]
      simp [dget]
  have hchar2 : ∀ f, dget (dinsert (dinsert b0 cfg.segment_type (some seg))
      "raw_data_path" (expGet e (rawAttrD cfg seg))) f =
      (if f = "raw_data_path" then some (expGet e (rawAttrD cfg seg))
       else if f = cfg.segment_type then some (some seg)
       else if f ∈ segScanFields e seg then
        some (expGet e (customAttrD cfg seg f))
       else none) := by
    intro f
    rw [dget_dinsert]
    by_cases h1 : f = "raw_data_path"
    · simp [h1]
    · rw [if_neg h1, if_neg h1, hchar1 f]
  have hpre : preIdBundle cfg e seg = .ok
      (dinsert (dinsert b0 cfg.segment_type (some seg)) "raw_data_path"
        (expGet e (rawAttrD cfg seg))) := by
    simp only [preIdBundle, hb0, rawAttrName_ok cfg seg hraw]
  have hidval : dget (dinsert (dinsert b0 cfg.segment_type (some seg))
      "raw_data_path" (expGet e (rawAttrD cfg seg))) "id" =
      some (expGet e (customAttrD cfg seg "id")) := by
    rw [hchar2 "id", if_neg (by decide),
      if_neg (fun hc => hst hc.symm), if_pos hidf]
  have hhk : hasKey (dinsert (dinsert b0 cfg.segment_type (some seg))
      "raw_data_path" (expGet e (rawAttrD cfg seg))) "id" = true := by
    rw [hasKey, hidval]
    rfl
  have hexp : expGet (dinsert (dinsert b0 cfg.segment_type (some seg))
      "raw_data_path" (expGet e (rawAttrD cfg seg))) "id" =
      expGet e (customAttrD cfg seg "id") := by
    rw [expGet, hidval]
  refine ⟨dinsert (dinsert (dinsert (dinsert b0 cfg.segment_type (some seg))
      "raw_data_path" (expGet e (rawAttrD cfg seg))) cfg.segment_id_attr
      (expGet e (customAttrD cfg seg "id"))) "segment_id"
      (expGet e (customAttrD cfg seg "id")), ?_, ?_⟩
  · simp only [resolveSegment, hpre, hhk, if_pos, hexp]
  · intro f
    rw [dget_dinsert]
    by_cases h1 : f = "segment_id"
    · simp [h1]
    · rw [if_neg h1, if_neg h1, dget_dinsert]
      by_cases h2 : f = cfg.segment_id_attr
      · simp [h2]
      · rw [if_neg h2, if_neg h2, hchar2 f]

/-- C10: the segment-identity check during resolution tests only the
presence of the `id` key in the bundle, not that its value is non-null:
for a segment whose experiment carries the `{segment_key}_id` attribute
name while the custom-pattern-derived attribute for the field `id` is
absent from the experiment, `resolve` does not raise
`MissingSegmentIdentifier` and instead produces a bundle whose `id`,
configured segment-id attribute, and canonical `segment_id` entries are
all null. -/
theorem C10_id_key_presence_only (cfg : Config) (e : Experiment)
    (seg pid : String)
    (hcust : customPatternOk cfg) (hraw : rawPatternOk cfg)
    (hst : cfg.segment_type ≠ "id")
    (hkey : hasKey e (seg ++ "_id") = true)
    (hpid : customAttrName cfg seg "id" = .ok pid)
    (habsent : hasKey e pid = false) :
    ∃ b, resolveSegment cfg e seg = .ok b ∧
      dget b "id" = some none ∧
      dget b cfg.segment_id_attr = some none ∧
      dget b "segment_id" = some none := by
  have hidf : "id" ∈ segScanFields e seg := by
    obtain ⟨a, ha, hfst⟩ := List.mem_map.mp (mem_of_hasKey e _ hkey)
    refine List.mem_filterMap.mpr ⟨a, ha, ?_⟩
    have hsplit : a.1 = seg ++ "_" ++ "id" := by
      rw [hfst, str_append_assoc]
      exact congrArg (fun z => seg ++ z) (by decide)
    rw [hsplit, strStartsWith_append, if_pos rfl,
      strReplace_scan seg "id" (no_underscore_no_occ seg "id" (by decide))]
  have hpidD : customAttrD cfg seg "id" = pid := by
    have := customAttrName_ok cfg seg "id" hcust
    rw [hpid] at this
    exact (Except.ok.injEq _ _).mp this.symm
  have hval : expGet e (customAttrD cfg seg "id") = none := by
    rw [hpidD, expGet]
    have : dget e pid = none := by
      rw [hasKey] at habsent
      cases hd : dget e pid
      · rfl
      · rw [hd] at habsent
        simp at habsent
    rw [this]
  obtain ⟨b, hb, hchar⟩ := resolveSegment_char cfg e seg hcust hraw hst hidf
  refine ⟨b, hb, ?_, ?_, ?_⟩
  · rw [hchar "id", if_neg (by decide)]
    by_cases h2 : "id" = cfg.segment_id_attr
    · rw [if_pos h2, hval]
    · rw [if_neg h2, if_neg (by decide), if_neg (fun hc => hst hc.symm),
        if_pos hidf, hval]
  · rw [hchar cfg.segment_id_attr]
    by_cases h1 : cfg.segment_id_attr = "segment_id"
    · rw [if_pos h1, hval]
    · rw [if_neg h1, if_pos rfl, hval]
  · rw [hchar "segment_id", if_pos rfl, hval]

/-- Witness for C10 at a concrete input: the experiment has the name
`s_id`, the custom pattern derives `s_custom_id`, which is absent, and
the segment resolves with all three id entries null. -/
theorem C10_id_key_presence_only_witness :
    ∃ b, resolveSegment cfgC10 expC10 "s" = .ok b ∧
      dget b "id" = some none ∧
      dget b cfgC10.segment_id_attr = some none ∧
      dget b "segment_id" = some none :=
  C10_id_key_presence_only cfgC10 expC10 "s" "s_custom_id"
    (by intro n hn; simp [tmplFieldNames, cfgC10] at hn; rcases hn with h | h
        · exact Or.inr (Or.inr h)
        · exact Or.inr (Or.inl h))
    (by intro n hn; simp [tmplFieldNames, cfgC10] at hn; exact Or.inr hn)
    (by decide) (by decide) rfl (by decide)

theorem segScanFields_cons (a : String × Option String) (e2 : Experiment)
    (s : String) :
    segScanFields (a :: e2) s =
      (if strStartsWith a.1 (s ++ "_") = true then
        strReplace a.1 (s ++ "_") "" :: segScanFields e2 s
      else segScanFields e2 s) := by
  simp only [segScanFields, List.filterMap_cons]
  by_cases h : strStartsWith a.1 (s ++ "_") = true <;> simp [h]

theorem segScanFields_eq (s : String) :
    ∀ (e : Experiment) (sample : List (String × String)),
      e.map Prod.fst = sample.map (fun p => p.1 ++ "_" ++ p.2) →
      (∀ p ∈ sample,
        strStartsWith (p.1 ++ "_" ++ p.2) (s ++ "_") = true → s = p.1) →
      (∀ p ∈ sample, ¬ (p.1 ++ "_").data <:+: p.2.data) →
      segScanFields e s =
        (sample.filter (fun p => p.1 = s)).map Prod.snd := by
  intro e
  induction e with
  | nil =>
    intro sample hkeys _ _
    have : sample = [] := by
      cases sample with
      | nil => rfl
      | cons q t => simp at hkeys
    subst this
    rfl
  | cons a e2 ih =>
    intro sample hkeys hpfree hocc
    cases sample with
    | nil => simp at hkeys
    | cons p t =>
      simp only [List.map_cons, List.cons.injEq] at hkeys
      obtain ⟨ha1, htail⟩ := hkeys
      have hrest := ih t htail
        (fun q hq => hpfree q (List.mem_cons_of_mem p hq))
        (fun q hq => hocc q (List.mem_cons_of_mem p hq))
      rw [segScanFields_cons]
      by_cases hstart : strStartsWith a.1 (s ++ "_") = true
      · have hs : s = p.1 := hpfree p (List.mem_cons_self p t) (ha1 ▸ hstart)
        have hrepl : strReplace a.1 (s ++ "_") "" = p.2 := by
          rw [ha1, ← hs]
          exact strReplace_scan s p.2 (hs ▸ hocc p (List.mem_cons_self p t))
        have hfilter : decide (p.1 = s) = true := by
          rw [← hs]
          simp
        rw [if_pos hstart, hrepl, hrest]
        simp [List.filter_cons, hfilter]
      · have hps : ¬ (p.1 = s) := by
          intro hc
          apply hstart
          rw [ha1, hc]
          exact strStartsWith_append (s ++ "_") p.2
        have hfilter : decide (p.1 = s) = false := by
          simp [hps]
        rw [if_neg hstart, hrest]
        simp [List.filter_cons, hfilter]

theorem getSegmentDetailsGo_ok (cfg : Config) (e : Experiment) :
    ∀ (segs : List String) (acc : List (String × Bundle)),
      segs.Nodup →
      (∀ s ∈ segs, (resolveSegment cfg e s).isOk = true) →
      (∀ s ∈ segs, dget acc s = none) →
      getSegmentDetailsGo cfg e segs acc =
        .ok (acc ++ segs.map (fun s => (s, resolveSegmentD cfg e s))) := by
  intro segs
  induction segs with
  | nil =>
    intro acc _ _ _
    simp [getSegmentDetailsGo]
  | cons s rest ih =>
    intro acc hnd hok hfresh
    have hs := hok s (List.mem_cons_self s rest)
    match hres : resolveSegment cfg e s with
    | .error er => rw [hres] at hs; simp [Except.isOk, Except.toBool] at hs
    | .ok b =>
      have hD : resolveSegmentD cfg e s = b := by
        rw [resolveSegmentD, hres]
      have hins : dinsert acc s b = acc ++ [(s, b)] :=
        dinsert_fresh acc s b (hfresh s (List.mem_cons_self s rest))
      have hfresh2 : ∀ s2 ∈ rest, dget (acc ++ [(s, b)]) s2 = none := by
        intro s2 hs2
        rw [dget_append_left _ _ _ (hfresh s2 (List.mem_cons_of_mem s hs2))]
        have hne : ¬ (s = s2) := by
          intro hc
          exact (List.nodup_cons.mp hnd).1 (hc ▸ hs2)
        simp [dget, hne]
      simp only [getSegmentDetailsGo, hres]
      rw [hins, ih (acc ++ [(s, b)]) (List.nodup_cons.mp hnd).2
        (fun s2 hs2 => hok s2 (List.mem_cons_of_mem s hs2)) hfresh2]
      simp [hD]

theorem dget_map_self (D : String → Bundle) :
    ∀ (segs : List String), segs.Nodup → ∀ s ∈ segs,
      dget (segs.map (fun s2 => (s2, D s2))) s = some (D s) := by
  intro segs
  induction segs with
  | nil => intro _ s hs; simp at hs
  | cons s0 rest ih =>
    intro hnd s hs
    rcases List.mem_cons.mp hs with rfl | hs2
    · simp [dget]
    · have hne : ¬ (s0 = s) := by
        intro hc
        exact (List.nodup_cons.mp hnd).1 (hc ▸ hs2)
      simp only [List.map_cons, dget_cons, if_neg hne]
      exact ih (List.nodup_cons.mp hnd).2 s hs2

/-- C6 as amended: for an ExperimentRecord holding exactly the attributes
`{seg}_{field}` for `(seg, field)` in a sample set — with each `seg` in
`config.segment_list`, segment prefixes unambiguous, every segment
carrying an `id` field, field names free of their own `{seg}_` prefix
(the code removes every occurrence of `{seg}_`, which equals
prefix-stripping exactly under this proviso) and distinct from the
bookkeeping keys — `resolve` returns a mapping keyed by `seg` in
`segment_list` order whose bundle for `seg` contains those fields, each
read from the attribute named by substituting the segment key and field
into `config.custom_pattern` (null when that attribute is absent),
together with exactly the four bookkeeping entries (the segment-type
key, `raw_data_path`, the segment-id attribute and `segment_id`). -/
theorem C6_resolve_amended (cfg : Config) (e : Experiment)
    (sample : List (String × String))
    (hcust : customPatternOk cfg) (hrawp : rawPatternOk cfg)
    (hnd : cfg.segment_list.Nodup)
    (hkeys : e.map Prod.fst = sample.map (fun p => p.1 ++ "_" ++ p.2))
    (_hsegs : ∀ p ∈ sample, p.1 ∈ cfg.segment_list)
    (hids : ∀ s ∈ cfg.segment_list, (s, "id") ∈ sample)
    (hpfree : ∀ p ∈ sample, ∀ s ∈ cfg.segment_list,
      strStartsWith (p.1 ++ "_" ++ p.2) (s ++ "_") = true → s = p.1)
    (hocc : ∀ p ∈ sample, ¬ (p.1 ++ "_").data <:+: p.2.data)
    (hbk : ∀ p ∈ sample, p.2 ≠ cfg.segment_type ∧ p.2 ≠ "raw_data_path" ∧
      p.2 ≠ cfg.segment_id_attr ∧ p.2 ≠ "segment_id") :
    ∃ m, getSegmentDetails cfg e = .ok m ∧
      m.map Prod.fst = cfg.segment_list ∧
      ∀ s ∈ cfg.segment_list, ∃ b, dget m s = some b ∧
        (∀ p ∈ sample, p.1 = s →
          customAttrName cfg s p.2 = .ok (customAttrD cfg s p.2) ∧
          dget b p.2 = some (expGet e (customAttrD cfg s p.2))) ∧
        (∀ f, hasKey b f = true ↔
          ((s, f) ∈ sample ∨ f = cfg.segment_type ∨ f = "raw_data_path" ∨
            f = cfg.segment_id_attr ∨ f = "segment_id")) := by
  have hscan : ∀ s ∈ cfg.segment_list, segScanFields e s =
      (sample.filter (fun p => p.1 = s)).map Prod.snd := fun s hs =>
    segScanFields_eq s e sample hkeys
      (fun p hp hst => hpfree p hp s hs hst) hocc
  have hchar : ∀ s ∈ cfg.segment_list, ∃ b,
      resolveSegment cfg e s = .ok b ∧
      ∀ f, dget b f =
        (if f = "segment_id" then
          some (expGet e (customAttrD cfg s "id"))
        else if f = cfg.segment_id_attr then
          some (expGet e (customAttrD cfg s "id"))
        else if f = "raw_data_path" then
          some (expGet e (rawAttrD cfg s))
        else if f = cfg.segment_type then some (some s)
        else if f ∈ segScanFields e s then
          some (expGet e (customAttrD cfg s f))
        else none) := by
    intro s hs
    have hid_sample := hids s hs
    have hst : cfg.segment_type ≠ "id" :=
      fun hc => (hbk (s, "id") hid_sample).1 hc.symm
    have hidf : "id" ∈ segScanFields e s := by
      rw [hscan s hs]
      exact List.mem_map.mpr
        ⟨(s, "id"), List.mem_filter.mpr ⟨hid_sample, by simp⟩, rfl⟩
    exact resolveSegment_char cfg e s hcust hrawp hst hidf
  have hok : ∀ s ∈ cfg.segment_list,
      (resolveSegment cfg e s).isOk = true := by
    intro s hs
    obtain ⟨b, hb, _⟩ := hchar s hs
    rw [hb]
    rfl
  have hgo := getSegmentDetailsGo_ok cfg e cfg.segment_list [] hnd hok
    (fun s _ => rfl)
  refine ⟨cfg.segment_list.map (fun s => (s, resolveSegmentD cfg e s)),
    ?_, ?_, ?_⟩
  · rw [getSegmentDetails, hgo]
    simp
  · rw [List.map_map]
    have hp1 : (Prod.fst ∘ fun s => (s, resolveSegmentD cfg e s)) =
        (id : String → String) := funext (fun s => rfl)
    rw [hp1, List.map_id]
  · intro s hs
    obtain ⟨b, hb, hbchar⟩ := hchar s hs
    have hD : resolveSegmentD cfg e s = b := by
      rw [resolveSegmentD, hb]
    have hmemf : ∀ f, (f ∈ segScanFields e s ↔ (s, f) ∈ sample) := by
      intro f
      rw [hscan s hs]
      constructor
      · intro hm
        obtain ⟨p, hpf, hpe⟩ := List.mem_map.mp hm
        obtain ⟨hpin, hflt⟩ := List.mem_filter.mp hpf
        have hp1 : p.1 = s := by simpa using hflt
        have hpeq : p = (s, f) := by
          obtain ⟨p1, p2⟩ := p
          simp only at hp1 hpe
          rw [hp1, hpe]
        rwa [hpeq] at hpin
      · intro hm
        exact List.mem_map.mpr ⟨(s, f), List.mem_filter.mpr ⟨hm, by simp⟩, rfl⟩
    refine ⟨b, ?_, ?_, ?_⟩
    · rw [dget_map_self _ cfg.segment_list hnd s hs, hD]
    · intro p hp hps
      refine ⟨customAttrName_ok cfg s p.2 hcust, ?_⟩
      obtain ⟨hbk1, hbk2, hbk3, hbk4⟩ := hbk p hp
      rw [hbchar p.2, if_neg hbk4, if_neg hbk3, if_neg hbk2, if_neg hbk1,
        if_pos ((hmemf p.2).mpr ?_)]
      have hpeq : p = (s, p.2) := by
        obtain ⟨p1, p2⟩ := p
        simp only at hps ⊢
        rw [hps]
      rwa [hpeq] at hp
    · intro f
      rw [hasKey, hbchar f]
      by_cases h1 : f = "segment_id"
      · simp [h1]
      · rw [if_neg h1]
        by_cases h2 : f = cfg.segment_id_attr
        · simp [h1, h2]
        · rw [if_neg h2]
          by_cases h3 : f = "raw_data_path"
          · simp [h1, h2, h3]
          · rw [if_neg h3]
            by_cases h4 : f = cfg.segment_type
            · simp [h1, h2, h3, h4]
            · rw [if_neg h4]
              by_cases h5 : f ∈ segScanFields e s
              · simp [h1, h2, h3, h4, h5, (hmemf f).mp h5]
              · have h6 : (s, f) ∉ sample :=
                  fun hc => h5 ((hmemf f).mpr hc)
                simp [h1, h2, h3, h4, h5, h6]

/-- Counterexample to C6 as stated: the experiment carries the attribute
`s_s_x`, i.e. segment key `s` with field name `s_x`; stripping the
`s_` prefix would give the field `s_x`, but the code's
`replace("s_", "")` removes every occurrence and yields `x` — the
returned bundle has an `x` entry and no `s_x` entry (and also carries
the bookkeeping keys `run`, `raw_data_path`, `run_id`, `segment_id`
beyond the stripped fields). -/
theorem C6_counterexample_replace_all :
    getSegmentDetails cfgC6 expC6 = .ok [("s",
      [("id", some "1"), ("x", none), ("run", some "s"),
       ("raw_data_path", none), ("run_id", some "1"),
       ("segment_id", some "1")])] ∧
    hasKey [(("id" : String), some "1"), ("x", none), ("run", some "s"),
       ("raw_data_path", none), ("run_id", some "1"),
       ("segment_id", some "1")] "s_x" = false ∧
    hasKey [(("id" : String), some "1"), ("x", none), ("run", some "s"),
       ("raw_data_path", none), ("run_id", some "1"),
       ("segment_id", some "1")] "x" = true := by
  exact ⟨rfl, by decide, by decide⟩

/-- Witness for the amended C6 at a concrete input. -/
theorem C6_resolve_amended_witness :
    ∃ m, getSegmentDetails cfgC6w expC6w = .ok m ∧
      m.map Prod.fst = cfgC6w.segment_list ∧
      ∀ s ∈ cfgC6w.segment_list, ∃ b, dget m s = some b ∧
        (∀ p ∈ sampleC6w, p.1 = s →
          customAttrName cfgC6w s p.2 = .ok (customAttrD cfgC6w s p.2) ∧
          dget b p.2 = some (expGet expC6w (customAttrD cfgC6w s p.2))) ∧
        (∀ f, hasKey b f = true ↔
          ((s, f) ∈ sampleC6w ∨ f = cfgC6w.segment_type ∨
            f = "raw_data_path" ∨ f = cfgC6w.segment_id_attr ∨
            f = "segment_id")) :=
  C6_resolve_amended cfgC6w expC6w sampleC6w
    (by unfold customPatternOk; decide) (by unfold rawPatternOk; decide)
    (by decide) (by decide) (by decide) (by decide) (by decide) (by decide)
    (by decide)

end BEP032
